import Mathlib

/-!
Verification of the event ingestion, typing and dispatch pipeline of the
streamdeck plugin SDK.  Each Python component named in the claims is given a
shallow embedding below: pure functions become Lean functions, and stateful
methods become functions from the component's state to an updated state.

* `PySet`, `Catalog`, `HandlersRegistry` embed
  `src/streamdeck/event_handlers/actions.py` and
  `src/streamdeck/event_handlers/registry.py`.
-/

namespace Streamdeck

/-- Handlers are identified by their Python object identity (a natural number
standing for the function object's id).  De-duplication and set membership in
`ActionBase._events` are by this identity. -/
abbrev Handler := Nat

/-! ### Association-list model of Python `dict`

Python dicts preserve key insertion order; a missing key is appended at the
end.  `alistGet`, `alistUpd` and `alistSet` model `d[k]`, defaultdict-style
update, and `d[k] = v` respectively. -/

/-- `d.get(k)` on a Python dict, modelled on an insertion-ordered association
list. -/
def alistGet {V : Type} : List (String × V) → String → Option V
  | [], _ => none
  | (k, v) :: rest, key => if k = key then some v else alistGet rest key

/-- Defaultdict-style in-place update: if `key` is present its value is
replaced by `f value` in place; otherwise `(key, f default)` is appended at
the end, as CPython's `defaultdict.__missing__` inserts the default before the
mutation is applied. -/
def alistUpd {V : Type} (l : List (String × V)) (key : String) (f : V → V) (d : V) :
    List (String × V) :=
  match l with
  | [] => [(key, f d)]
  | (k, v) :: rest => if k = key then (k, f v) :: rest else (k, v) :: alistUpd rest key f d

/-- `d[k] = v` on a Python dict: replace in place if present, else append. -/
def alistSet {V : Type} (l : List (String × V)) (key : String) (v : V) : List (String × V) :=
  match l with
  | [] => [(key, v)]
  | (k, w) :: rest => if k = key then (k, v) :: rest else (k, w) :: alistSet rest key v

/-! ### CPython `set` of handler functions

`ActionBase._events` is a `defaultdict(set)` (`event_handlers/actions.py`,
line 34): handlers for a tag are kept in a CPython `set`. -/

/-- A CPython `set` of handler objects.  `elems` records the distinct elements
in first-insertion order (used for bookkeeping only); the observable iteration
order is given by `PySet.iter` and is governed by the hash table, not by
`elems`' order. -/
structure PySet where
  elems : List Handler
deriving DecidableEq

def PySet.empty : PySet := ⟨[]⟩

/-- `set.add`: insert the element if it is not already a member (de-duplication
by identity). -/
def PySet.add (s : PySet) (h : Handler) : PySet :=
  if h ∈ s.elems then s else ⟨s.elems ++ [h]⟩

/-- Iteration over a small CPython set: the hash table (8 slots for sets of at
most 4 elements) is scanned in slot order, and an element's home slot is its
hash modulo the table size.  The hash of a function object derives from its
memory address, which is assigned by the runtime and not controlled by this
code, so it enters as the parameter `hash`.  For hash assignments whose home
slots are distinct this is exactly CPython's iteration order; colliding
elements are approximated by insertion order within their home slot. -/
def PySet.iter (s : PySet) (hash : Handler → Nat) : List Handler :=
  (List.range 8).flatMap (fun slot => s.elems.filter (fun h => hash h % 8 == slot))

/-! ### `ActionBase` / `Action` / `GlobalAction` catalogs -/

/-- A handler catalog (`ActionBase` subclass instance).  `uuid = some u` models
an `Action` with that uuid; `uuid = none` models a catalog that is not an
`Action` (a `GlobalAction`, or a `HandlerMethodCatalogMixin` catalog such as
`PluginState`) — the registry's filter tests `isinstance(catalog, Action)`.
`events` is the `_events : defaultdict(set)` mapping, in key insertion
order. -/
structure Catalog where
  uuid : Option String
  events : List (String × PySet)
deriving DecidableEq

/-- `ActionBase.on(event_name)(func)` (`event_handlers/actions.py`, lines
36-53): `self._events[event_name].add(func)` on the `defaultdict(set)`. -/
def Catalog.on (c : Catalog) (event_name : String) (func : Handler) : Catalog :=
  { c with events := alistUpd c.events event_name (fun s => s.add func) PySet.empty }

/-- A sequence of `ActionBase.on` registrations applied in order. -/
def Catalog.onAll (c : Catalog) (regs : List (String × Handler)) : Catalog :=
  regs.foldl (fun c p => c.on p.1 p.2) c

/-- `ActionBase.get_event_handlers` (`event_handlers/actions.py`, lines 55-70):
return nothing when the tag is absent, otherwise yield the members of the set
in its iteration order. -/
def Catalog.getEventHandlers (c : Catalog) (hash : Handler → Nat) (event_name : String) :
    List Handler :=
  match alistGet c.events event_name with
  | none => []
  | some s => s.iter hash

/-- `ActionBase.get_registered_event_names` (`event_handlers/actions.py`,
lines 72-78): `list(self._events.keys())`. -/
def Catalog.getRegisteredEventNames (c : Catalog) : List String :=
  c.events.map (·.1)

/-! ### `HandlersRegistry` -/

/-- `HandlersRegistry` (`event_handlers/registry.py`): the list of registered
catalogs, in registration order. -/
structure HandlersRegistry where
  catalogs : List Catalog
deriving DecidableEq

def HandlersRegistry.empty : HandlersRegistry := ⟨[]⟩

/-- `HandlersRegistry.register` (`event_handlers/registry.py`, lines 24-30). -/
def HandlersRegistry.register (r : HandlersRegistry) (c : Catalog) : HandlersRegistry :=
  ⟨r.catalogs ++ [c]⟩

/-- The `continue` condition in `HandlersRegistry.get_event_handlers`
(`event_handlers/registry.py`, line 47): `event_action_uuid is not None and
(isinstance(catalog, Action) and catalog.uuid != event_action_uuid)`. -/
def skipCatalog (event_action_uuid : Option String) (catalog : Catalog) : Bool :=
  match event_action_uuid, catalog.uuid with
  | some u, some cu => cu != u
  | _, _ => false

/-- `HandlersRegistry.get_event_handlers` (`event_handlers/registry.py`, lines
32-51): iterate the catalogs in registration order, skip a catalog when
`skipCatalog` holds, and otherwise yield all of that catalog's handlers for the
event name. -/
def HandlersRegistry.getEventHandlers (r : HandlersRegistry) (hash : Handler → Nat)
    (event_name : String) (event_action_uuid : Option String) : List Handler :=
  r.catalogs.flatMap (fun catalog =>
    if skipCatalog event_action_uuid catalog then []
    else catalog.getEventHandlers hash event_name)

/-- Spec-side eligibility rule, written from the spec's words for the
refinement comparison with the code's filter (spec section 4.3): global
catalogs always contribute; a scoped catalog contributes exactly when the
event carries no action uuid or the uuids agree. -/
def specEligible (event_action_uuid : Option String) (catalog : Catalog) : Bool :=
  match catalog.uuid with
  | none => true
  | some cu =>
    match event_action_uuid with
    | none => true
    | some u => cu == u

/-- The distinct handlers held by a catalog for a tag, in first-insertion
order (the underlying set's `elems` bookkeeping, or `[]` when the tag is
absent). -/
def catalogElems (c : Catalog) (event_name : String) : List Handler :=
  ((alistGet c.events event_name).getD PySet.empty).elems

/-- A concrete catalog on which two handlers (ids 2 and 1) are registered for
the tag `keyDown`, in that order. -/
def c2Catalog : Catalog := (Catalog.mk none []).onAll [("keyDown", 2), ("keyDown", 1)]

/-! ### JSON values and event shapes

`models/events/*.py` define the built-in event models as pydantic classes.
Each model is embedded as an `EventShape`: its wire tag, its required
top-level field keys (by wire alias, other than `event` and `payload`), and a
description of its payload.  Field values are opaque `JVal`s; payload models
with optional fields (default `None`) follow `ConfiguredBaseModel`'s
serialization (`model_dump_json` with `exclude_defaults=True`, so a `None`
value of a defaulted field is omitted from the wire form and restored to
`None` on decode). -/

/-- A JSON value.  Leaf payload contents that the pipeline never inspects are
carried as opaque `JVal`s. -/
inductive JVal where
  | str (s : String)
  | int (n : Int)
  | bool (b : Bool)
  | null
  | obj (fields : List (String × JVal))

/-- A raw message from a listener: either a well-formed JSON document or text
that fails JSON parsing (pydantic raises `ValidationError` for the latter). -/
inductive RawMsg where
  | malformed
  | text (j : JVal)

/-- The decode failures pydantic's `TypeAdapter.validate_json` signals as
`ValidationError`: invalid JSON, a non-object document, a missing or
non-string discriminator, an unrecognized tag, and shape-validation
failures. -/
inductive DecodeErr where
  | invalidJson
  | notAnObject
  | missingTag
  | unknownTag (tag : String)
  | missingField (key : String)
  | badPayload
deriving DecidableEq

/-- Field keys of a pydantic model.  `required` are the keys validation
expects (pydantic validates by alias when a field declares one); `serRequired`
are, positionally, the keys `model_dump_json` emits for the same fields —
the alias when the model's config sets `serialize_by_alias`
(`ConfiguredBaseModel` subclasses), but the Python field name when the model
subclasses plain `BaseModel`.  `optionalKeys` are the default-`None` fields,
omitted from the wire form when `None` because of `exclude_defaults=True`
(no built-in payload model aliases an optional field, so one key list serves
both directions for them). -/
structure Schema where
  required : List String
  serRequired : List String
  optionalKeys : List String
deriving DecidableEq

/-- Schema of a payload model whose serialization keys coincide with its
validation keys: either the model opts into `serialize_by_alias`
(`ConfiguredBaseModel` subclasses) or it declares no aliased required
field. -/
def uniformSchema (req opt : List String) : Schema :=
  ⟨req, req, opt⟩

/-- A value of a `Schema`: one `JVal` per required key and one optional `JVal`
per optional key, positionally. -/
structure SchemaVal where
  req : List JVal
  opt : List (Option JVal)

/-- Well-formedness of a `SchemaVal` against its schema: the positional lists
have the schema's lengths. -/
def SchemaVal.wfb (sch : Schema) (v : SchemaVal) : Bool :=
  v.req.length == sch.required.length && v.opt.length == sch.optionalKeys.length

/-- The wire fields contributed by optional (defaulted) model fields: a field
whose value is `None` is omitted (`exclude_defaults=True`). -/
def optFields (ks : List String) (os : List (Option JVal)) : List (String × JVal) :=
  (ks.zip os).filterMap (fun kv => kv.2.map (fun j => (kv.1, j)))

/-- Serialization of a schema value (`model_dump_json` of the event, with the
`exclude_defaults=True` wrapper of `models/events/base.py` lines 22-35):
required fields are emitted under their serialization keys (the alias only
for models configured with `serialize_by_alias`); optional fields are emitted
only when their value is not `None`. -/
def encodeSchema (sch : Schema) (v : SchemaVal) : List (String × JVal) :=
  sch.serRequired.zip v.req ++ optFields sch.optionalKeys v.opt

/-- Look up a required field, signaling `missing` as pydantic does. -/
def getReq (fields : List (String × JVal)) (k : String) : Except DecodeErr JVal :=
  match alistGet fields k with
  | some v => .ok v
  | none => .error (.missingField k)

/-- Validation of an object against a schema: every required key must be
present; optional keys default to `None` when absent. -/
def decodeSchema (sch : Schema) (fields : List (String × JVal)) :
    Except DecodeErr SchemaVal := do
  let req ← sch.required.mapM (getReq fields)
  let opt := sch.optionalKeys.map (alistGet fields)
  pure ⟨req, opt⟩

/-- The payload of an event model: absent (no `payload` field), plugin-defined
data (an opaque JSON value, `PluginDefinedData`), a fixed payload model, or a
pair of payload models discriminated on `isInMultiAction`
(`CardinalityDiscriminated` in `models/events/common.py`). -/
inductive PayloadSpec where
  | noPayload
  | dataPayload
  | plainP (sch : Schema)
  | cardinalP (single multi : Schema)
deriving DecidableEq

/-- A payload value matching a `PayloadSpec`.  For discriminated payloads the
branch constructor carries the `isInMultiAction` literal (`False` for
`singleV`, `True` for `multiV`), mirroring the `Literal` discriminator field
of the pydantic payload models. -/
inductive PayloadVal where
  | absent
  | dataV (j : JVal)
  | plainV (v : SchemaVal)
  | singleV (v : SchemaVal)
  | multiV (v : SchemaVal)

/-- Well-formedness of a payload value against its spec. -/
def PayloadVal.wfb : PayloadSpec → PayloadVal → Bool
  | .noPayload, .absent => true
  | .dataPayload, .dataV _ => true
  | .plainP sch, .plainV v => v.wfb sch
  | .cardinalP s _, .singleV v => v.wfb s
  | .cardinalP _ m, .multiV v => v.wfb m
  | _, _ => false

/-- Serialization of a payload value.  The discriminator literal is emitted
under its alias `isInMultiAction`. -/
def encodePayload : PayloadSpec → PayloadVal → Option JVal
  | _, .absent => none
  | _, .dataV j => some j
  | .plainP sch, .plainV v => some (.obj (encodeSchema sch v))
  | .cardinalP s _, .singleV v =>
    some (.obj (("isInMultiAction", .bool false) :: encodeSchema s v))
  | .cardinalP _ m, .multiV v =>
    some (.obj (("isInMultiAction", .bool true) :: encodeSchema m v))
  | _, _ => none

/-- Validation of the `payload` field (if any) against the payload spec.  A
`payload` field present on a model without one is ignored (pydantic's default
`extra` policy); a discriminated payload is dispatched on `isInMultiAction`. -/
def decodePayload : PayloadSpec → Option JVal → Except DecodeErr PayloadVal
  | .noPayload, _ => .ok .absent
  | .dataPayload, some j => .ok (.dataV j)
  | .dataPayload, none => .error (.missingField "payload")
  | .plainP sch, some (.obj fields) => (decodeSchema sch fields).map .plainV
  | .plainP _, some _ => .error .badPayload
  | .plainP _, none => .error (.missingField "payload")
  | .cardinalP s m, some (.obj fields) =>
    match alistGet fields "isInMultiAction" with
    | some (.bool false) => (decodeSchema s fields).map .singleV
    | some (.bool true) => (decodeSchema m fields).map .multiV
    | _ => .error .badPayload
  | .cardinalP _ _, some _ => .error .badPayload
  | .cardinalP _ _, none => .error (.missingField "payload")

/-- An event model: wire tag (the `event` discriminator), required top-level
field keys (by wire alias, in model field order), and its payload spec. -/
structure EventShape where
  tag : String
  topKeys : List String
  payload : PayloadSpec
deriving DecidableEq

/-- A typed event value: its tag, its top-level field values (positional
against the shape's `topKeys`), and its payload value. -/
structure EventVal where
  tag : String
  top : List JVal
  pay : PayloadVal

/-- Well-formedness of an event value against a shape. -/
def EventVal.wfb (sh : EventShape) (e : EventVal) : Bool :=
  e.tag == sh.tag && e.top.length == sh.topKeys.length && PayloadVal.wfb sh.payload e.pay

/-- Serialization of an event to its wire form
(`ConfiguredBaseModel.model_dump_json`): the `event` discriminator, the
required top-level fields, and the payload (when the model has one). -/
def encodeEvent (sh : EventShape) (e : EventVal) : JVal :=
  .obj ((("event", .str e.tag) :: sh.topKeys.zip e.top) ++
    (match encodePayload sh.payload e.pay with
     | none => []
     | some j => [("payload", j)]))

/-- Validation of an object's fields against one shape. -/
def decodeShape (sh : EventShape) (fields : List (String × JVal)) :
    Except DecodeErr EventVal := do
  let top ← sh.topKeys.mapM (getReq fields)
  let pay ← decodePayload sh.payload (alistGet fields "payload")
  pure ⟨sh.tag, top, pay⟩

/-- `TypeAdapter.validate_json` over a discriminated union of shapes
(`models/events/adapter.py`): reject invalid JSON and non-objects, read the
`event` discriminator, select the shape with that tag, and validate the
remaining fields against it. -/
def decodeEventWith (shapes : List EventShape) : RawMsg → Except DecodeErr EventVal
  | .malformed => .error .invalidJson
  | .text (.obj fields) =>
    (match alistGet fields "event" with
     | some (.str t) =>
       (match shapes.find? (fun sh => sh.tag == t) with
        | some sh => decodeShape sh fields
        | none => .error (.unknownTag t))
     | _ => .error .missingTag)
  | .text _ => .error .notAnObject

/-! ### The built-in event shapes (`models/events/`) -/

/-- `ApplicationPayload` (`application.py`). -/
def applicationPayloadSchema : Schema := uniformSchema ["application"] []

/-- `DeepLinkPayload` (`deep_link.py`). -/
def deepLinkPayloadSchema : Schema := uniformSchema ["url"] []

/-- `EncoderPayload` (`dials.py`). -/
def encoderPayloadSchema : Schema := uniformSchema ["controller", "coordinates", "settings"] []

/-- `DialRotatePayload` (`dials.py`). -/
def dialRotatePayloadSchema : Schema :=
  uniformSchema ["controller", "coordinates", "pressed", "ticks", "settings"] []

/-- `SingleActionKeyGesturePayload` (`keys.py`): `coordinates`,
`isInMultiAction` (discriminator) and `settings` required; `controller` and
`state` optional with default `None`. -/
def singleActionKeyGestureSchema : Schema :=
  uniformSchema ["coordinates", "settings"] ["controller", "state"]

/-- `MultiActionKeyGesturePayload` (`keys.py`). -/
def multiActionKeyGestureSchema : Schema :=
  uniformSchema ["userDesiredState", "settings"] ["controller", "state"]

/-- `GlobalSettingsPayload` (`settings.py`). -/
def globalSettingsPayloadSchema : Schema := uniformSchema ["settings"] []

/-- `SingleActionSettingsPayload` (`settings.py`): `BasePayload` fields plus
required `coordinates`; `state` optional via `StatefulActionPayloadMixin`. -/
def singleActionSettingsSchema : Schema :=
  uniformSchema ["controller", "settings", "coordinates"] ["state"]

/-- `MultiActionSettingsPayload` (`settings.py`). -/
def multiActionSettingsSchema : Schema := uniformSchema ["controller", "settings"] ["state"]

/-- `TitleParametersDidChangePayload` (`title_parameters.py`).  Its `state`
field is `Optional[int]` with no default, hence required on the wire (it may
carry JSON `null`).  The class subclasses plain `BaseModel`
(`title_parameters.py` line 33) with no `serialize_by_alias` config, so
`model_dump_json` emits its aliased field under the Python field name
`title_parameters`, while validation requires the alias `titleParameters`:
the serialization keys differ from the validation keys. -/
def titleParametersPayloadSchema : Schema :=
  ⟨["controller", "coordinates", "title", "titleParameters", "state", "settings"],
   ["controller", "coordinates", "title", "title_parameters", "state", "settings"],
   []⟩

/-- `TouchTapPayload` (`touch_tap.py`). -/
def touchTapPayloadSchema : Schema :=
  uniformSchema ["controller", "coordinates", "hold", "tapPos", "settings"] []

/-- Modelled from the spec: `SingleActionVisibilityPayload` (`visibility.py`)
subclasses `BaseActionPayload`, which is absent from `models/events/common.py`
in this tree; following the spec's description of the coordinate-bearing
visibility payload and the analogous `BasePayload`-derived payloads, it has
required `controller`, `settings` and `coordinates` plus the
`isInMultiAction` discriminator. -/
def singleActionVisibilitySchema : Schema :=
  uniformSchema ["controller", "settings", "coordinates"] []

/-- Modelled from the spec: `MultiActionVisibilityPayload` (`visibility.py`),
the coordinate-free multi-action visibility payload (see
`singleActionVisibilitySchema` for why this is spec-modelled). -/
def multiActionVisibilitySchema : Schema := uniformSchema ["controller", "settings"] []

/-- The 20 built-in event shapes, in the order of `DEFAULT_EVENT_MODELS`
(`models/events/init`). -/
def builtinShapes : List EventShape := [
  ⟨"applicationDidLaunch", [], .plainP applicationPayloadSchema⟩,
  ⟨"applicationDidTerminate", [], .plainP applicationPayloadSchema⟩,
  ⟨"deviceDidConnect", ["device", "deviceInfo"], .noPayload⟩,
  ⟨"deviceDidDisconnect", ["device"], .noPayload⟩,
  ⟨"dialDown", ["action", "context", "device"], .plainP encoderPayloadSchema⟩,
  ⟨"dialRotate", ["action", "context", "device"], .plainP dialRotatePayloadSchema⟩,
  ⟨"dialUp", ["action", "context", "device"], .plainP encoderPayloadSchema⟩,
  ⟨"didReceiveDeepLink", [], .plainP deepLinkPayloadSchema⟩,
  ⟨"keyUp", ["action", "context", "device"],
    .cardinalP singleActionKeyGestureSchema multiActionKeyGestureSchema⟩,
  ⟨"keyDown", ["action", "context", "device"],
    .cardinalP singleActionKeyGestureSchema multiActionKeyGestureSchema⟩,
  ⟨"sendToPlugin", ["action", "context"], .dataPayload⟩,
  ⟨"propertyInspectorDidAppear", ["action", "context", "device"], .noPayload⟩,
  ⟨"propertyInspectorDidDisappear", ["action", "context", "device"], .noPayload⟩,
  ⟨"didReceiveGlobalSettings", [], .plainP globalSettingsPayloadSchema⟩,
  ⟨"didReceiveSettings", ["action", "context", "device"],
    .cardinalP singleActionSettingsSchema multiActionSettingsSchema⟩,
  ⟨"systemDidWakeUp", [], .noPayload⟩,
  ⟨"titleParametersDidChange", ["device", "context"], .plainP titleParametersPayloadSchema⟩,
  ⟨"touchTap", ["action", "context", "device"], .plainP touchTapPayloadSchema⟩,
  ⟨"willAppear", ["action", "context", "device"],
    .cardinalP singleActionVisibilitySchema multiActionVisibilitySchema⟩,
  ⟨"willDisappear", ["action", "context", "device"],
    .cardinalP singleActionVisibilitySchema multiActionVisibilitySchema⟩]

/-! ### `EventAdapter` (`models/events/adapter.py`) -/

/-- The state of an `EventAdapter`: the registered models, the registered
event names (a set, kept as a de-duplicated insertion-ordered list), and the
lazily built `_type_adapter` cache, recorded as the model list the cached
`TypeAdapter` was built from (`None` until the first use). -/
structure EventAdapterState where
  models : List EventShape
  eventNames : List String
  typeAdapter : Option (List EventShape)
deriving DecidableEq

/-- `EventAdapter.add_model` (`adapter.py` lines 77-80): append the model and
merge its event names.  The `_type_adapter` cache is deliberately left
untouched, as in the source.  (The source spells the call
`model.get_model_event_name()`; the event package's `EventBase` defines
`get_model_event_names`, returning the model's tags — modelled here as the
single tag each built-in shape declares.) -/
def EventAdapterState.addModel (s : EventAdapterState) (m : EventShape) : EventAdapterState :=
  { s with
    models := s.models ++ [m]
    eventNames := if m.tag ∈ s.eventNames then s.eventNames else s.eventNames ++ [m.tag] }

/-- `EventAdapter()` construction (`adapter.py` lines 65-75): start empty and
`add_model` each given model (the source passes `DEFAULT_EVENT_MODELS`). -/
def EventAdapterState.init (ms : List EventShape) : EventAdapterState :=
  ms.foldl .addModel ⟨[], [], none⟩

/-- `EventAdapter.event_name_exists` (`adapter.py` lines 82-84). -/
def EventAdapterState.eventNameExists (s : EventAdapterState) (name : String) : Bool :=
  name ∈ s.eventNames

/-- The `type_adapter` property (`adapter.py` lines 86-97): build the
`TypeAdapter` from the current models on first use and cache it; later uses
return the cached adapter unchanged. -/
def EventAdapterState.typeAdapterGet (s : EventAdapterState) :
    List EventShape × EventAdapterState :=
  match s.typeAdapter with
  | some a => (a, s)
  | none => (s.models, { s with typeAdapter := some s.models })

/-- `EventAdapter.validate_json` (`adapter.py` lines 99-101): decode against
the (possibly cached) type adapter. -/
def EventAdapterState.validateJson (s : EventAdapterState) (raw : RawMsg) :
    Except DecodeErr EventVal × EventAdapterState :=
  let (a, s') := s.typeAdapterGet
  (decodeEventWith a raw, s')

/-- The model set a `validate_json` call on state `s` resolves against: the
cached list when the cache exists, else the current models. -/
def effModels (s : EventAdapterState) : List EventShape :=
  s.typeAdapter.getD s.models

/-! ### `PluginManager` (`manager.py`) and handler signatures (`protocol.py`) -/

/-- Python-level errors surfaced by the manager paths modelled here. -/
inductive PyErr where
  | keyError (msg : String)
  | typeError
deriving DecidableEq

/-- `PluginManager._ensure_catalog_has_valid_events` (`manager.py` lines
77-87): raise `KeyError` on the first registered event name the active
adapter does not know. -/
def ensureCatalogHasValidEvents (adapter : EventAdapterState) (c : Catalog) :
    Except PyErr Unit :=
  match c.getRegisteredEventNames.find? (fun n => !(adapter.eventNameExists n)) with
  | some n => .error (.keyError ("Invalid event received: " ++ n))
  | none => .ok ()

/-- The state of a `PluginManager` relevant to registration and dispatch. -/
structure PluginManagerState where
  handlersRegistry : HandlersRegistry
  eventAdapter : EventAdapterState
deriving DecidableEq

/-- `PluginManager.register_action` (`manager.py` lines 89-102): validate the
catalog's declared event names first; only then register it with the handlers
registry.  (Logger configuration is out of scope, spec section 1.) -/
def registerAction (s : PluginManagerState) (c : Catalog) : Except PyErr PluginManagerState :=
  match ensureCatalogHasValidEvents s.eventAdapter c with
  | .error e => .error e
  | .ok _ => .ok ⟨s.handlersRegistry.register c, s.eventAdapter⟩

/-- A Python handler function as the dispatcher sees it: its identity and its
declared parameter names (`inspect.signature(handler).parameters`). -/
structure PyHandler where
  id : Handler
  params : List String
deriving DecidableEq

/-- `is_bindable_handler` (`event_handlers/protocol.py` lines 67-70):
`command_sender` appears among the declared parameters. -/
def isBindableHandler (h : PyHandler) : Bool :=
  h.params.contains "command_sender"

/-- `is_not_bindable_handler` (`event_handlers/protocol.py` lines 73-79):
exactly one declared parameter, named `event_data`. -/
def isNotBindableHandler (h : PyHandler) : Bool :=
  h.params.length == 1 && h.params.contains "event_data"

/-- The result of `_inject_command_sender`: the handler with the shared
command sender bound as an extra argument (`functools.partial`), or the
handler unchanged. -/
inductive ProcessedHandler where
  | withSender (h : PyHandler)
  | plain (h : PyHandler)
deriving DecidableEq

/-- `PluginManager._inject_command_sender` (`manager.py` lines 140-158). -/
def injectCommandSender (h : PyHandler) : Except PyErr ProcessedHandler :=
  if isBindableHandler h then .ok (.withSender h)
  else if !(isNotBindableHandler h) then .error .typeError
  else .ok (.plain h)

/-- A record of one handler invocation performed by `_dispatch_event`:
which handler ran, and whether the command sender was bound as an extra
argument. -/
structure Invocation where
  handler : Handler
  boundSender : Bool
deriving DecidableEq

/-- The per-event loop body of `PluginManager._dispatch_event` (`manager.py`
lines 163-176) over the handlers the registry yielded: inject the command
sender (possibly raising `TypeError`), then invoke.  The result is the list
of invocations performed, together with the first injection error (if any);
an error stops the loop before the offending handler is invoked. -/
def dispatchHandlers : List PyHandler → List Invocation × Option PyErr
  | [] => ([], none)
  | h :: rest =>
    match injectCommandSender h with
    | .error e => ([], some e)
    | .ok (.withSender _) =>
      let (invs, err) := dispatchHandlers rest
      (⟨h.id, true⟩ :: invs, err)
    | .ok (.plain _) =>
      let (invs, err) := dispatchHandlers rest
      (⟨h.id, false⟩ :: invs, err)

/-- `PluginManager._stream_event_data` (`manager.py` lines 115-137): validate
each raw message with the event adapter (threading its cache state), drop a
message whose validation raises (logged), drop a decoded event whose name the
adapter does not know (logged), and yield the rest in order. -/
def streamEventData : EventAdapterState → List RawMsg → List EventVal × EventAdapterState
  | s, [] => ([], s)
  | s, m :: rest =>
    let p := s.validateJson m
    match p.1 with
    | .error _ => streamEventData p.2 rest
    | .ok d =>
      if p.2.eventNameExists d.tag then
        let q := streamEventData p.2 rest
        (d :: q.1, q.2)
      else streamEventData p.2 rest

/-- A minimal custom event shape with tag `a`, used for concrete adapter
scenarios. -/
def shapeA : EventShape := ⟨"a", [], .noPayload⟩

/-- A minimal custom event shape with tag `b`, used for concrete adapter
scenarios. -/
def shapeB : EventShape := ⟨"b", [], .noPayload⟩

/-- An adapter holding only `shapeA` after one `validate_json` call (the call
that builds and caches the `TypeAdapter`). -/
def c4AfterFirstDecode : EventAdapterState :=
  ((EventAdapterState.init [shapeA]).validateJson (.text (.obj [("event", .str "a")]))).2

/-- `c4AfterFirstDecode` after `add_model(shapeB)`. -/
def c4AfterAdd : EventAdapterState := c4AfterFirstDecode.addModel shapeB

/-- A handler signature the dispatcher accepts: bindable (declares
`command_sender`) or taking exactly the `event_data` parameter. -/
def goodHandler (h : PyHandler) : Bool :=
  isBindableHandler h || isNotBindableHandler h

/-- What `_stream_event_data` keeps of one message, given the adapter state
the stream started from: the decoded event, provided decoding succeeds and
the event name is registered. -/
def streamKeep (s : EventAdapterState) (m : RawMsg) : Option EventVal :=
  match decodeEventWith (effModels s) m with
  | .error _ => none
  | .ok d => if s.eventNameExists d.tag then some d else none

/-! ### `EventListenerManager.event_stream` (`event_listener.py`)

The consumer sequence is a generator over the shared queue.  The embedding
takes the trace of items the queue will deliver (in FIFO order, merged from
the producer threads) and the single consumer's behaviour, and returns what a
run of the generator observes. -/

/-- An item in the shared event queue: a raw `str | bytes` message or the
reserved `_SENTINAL` singleton. -/
inductive QItem where
  | msg (m : String)
  | sentinal
deriving DecidableEq

/-- The single consumer's behaviour towards the generator: iterate to
exhaustion; close the generator (early `break` — Python's `for ... break`
closes after having received at least one message, so `closeAfter k` closes
at the yield point after `k + 1` received messages); or throw an exception
into it at the yield point after `k + 1` received messages. -/
inductive ConsumerMode where
  | runToEnd
  | closeAfter (k : Nat)
  | throwAfter (k : Nat)
deriving DecidableEq

/-- How a run of the consumer sequence ended: the loop dequeued the sentinel
and broke (clean termination of the iteration), the consumer closed the
generator early, or an exception was thrown in at a yield point. -/
inductive EndKind where
  | sentinal
  | consumerClosed
  | consumerThrew
deriving DecidableEq

/-- The observable outcome of a terminating run of `event_stream`: the
messages yielded, whether the `finally` block invoked `stop()`, and how the
run ended. -/
structure StreamRun where
  yielded : List String
  stopCalled : Bool
  endKind : EndKind
deriving DecidableEq

/-- `EventListenerManager.event_stream` (`event_listener.py` lines 97-113):
`while True: event = queue.get(); if sentinal: break; yield event`, wrapped in
`try/finally: self.stop()`.  Every way out of the started generator — the
sentinel `break`, a `GeneratorExit` from the consumer closing it at a yield,
or an exception thrown in at a yield — runs the `finally`, recorded as
`stopCalled := true` (`stop()` itself, lines 79-95, does thread cleanup
outside this sequential embedding).  A `none` result models the consumer
blocking forever in `queue.get()` because the trace is exhausted without a
sentinel: the sequence does not end, so nothing further is observed. -/
def eventStreamRun : List QItem → ConsumerMode → Option StreamRun
  | [], _ => none
  | .sentinal :: _, _ => some ⟨[], true, .sentinal⟩
  | .msg m :: rest, .runToEnd =>
    (eventStreamRun rest .runToEnd).map fun r => ⟨m :: r.yielded, r.stopCalled, r.endKind⟩
  | .msg m :: _, .closeAfter 0 => some ⟨[m], true, .consumerClosed⟩
  | .msg m :: rest, .closeAfter (k + 1) =>
    (eventStreamRun rest (.closeAfter k)).map fun r => ⟨m :: r.yielded, r.stopCalled, r.endKind⟩
  | .msg m :: _, .throwAfter 0 => some ⟨[m], true, .consumerThrew⟩
  | .msg m :: rest, .throwAfter (k + 1) =>
    (eventStreamRun rest (.throwAfter k)).map fun r => ⟨m :: r.yielded, r.stopCalled, r.endKind⟩

/-- The messages queued before the first sentinel. -/
def msgsBeforeSentinal : List QItem → List String
  | [] => []
  | .sentinal :: _ => []
  | .msg m :: rest => m :: msgsBeforeSentinal rest

/-- Whether the queue trace contains the sentinel. -/
def hasSentinal : List QItem → Bool
  | [] => false
  | .sentinal :: _ => true
  | .msg _ :: rest => hasSentinal rest

/-! ### `PluginState` (`state.py`)

The nested `RootDefaultDictModel`s are embedded as insertion-ordered
association lists with defaultdict-style access; mutation through the
references Python hands out becomes explicit state passing. -/

/-- `ActionInstanceDataDictModel` (`state.py` lines 228-234): settings map
(plugin-defined data, opaque JSON values) and optional coordinates
(column, row). -/
structure ActionInstanceData where
  settings : List (String × JVal)
  coordinates : Option (Int × Int)

/-- `ActionInstanceDataDictModel()`: empty settings, no coordinates. -/
def emptyInstanceData : ActionInstanceData := ⟨[], none⟩

/-- `DeviceDataDictModel` (`state.py` lines 194-203): per-action instance
maps and optional device info (opaque to the tracker). -/
structure DeviceData where
  actions : List (String × List (String × ActionInstanceData))
  info : Option JVal

/-- `DeviceDataDictModel()`: empty actions, no info. -/
def emptyDeviceData : DeviceData := ⟨[], none⟩

/-- `PluginState` (`state.py` lines 33-44): the device tree and the flat
action-instance tracking set (insertion-ordered, de-duplicated). -/
structure PluginState where
  data : List (String × DeviceData)
  actionInstances : List String

/-- `PluginState()` (`state.py` lines 41-44). -/
def PluginState.init : PluginState := ⟨[], []⟩

/-- `RootDefaultDictModel.__getitem__` (`state.py` lines 135-142): return the
value, creating and inserting a default node first when the key is missing. -/
def getOrCreate {V : Type} (l : List (String × V)) (k : String) (d : V) :
    V × List (String × V) :=
  match alistGet l k with
  | some v => (v, l)
  | none => (d, l ++ [(k, d)])

/-- `dict.pop(key, None)`'s removal effect: drop the entry for the key. -/
def alistRemove {V : Type} : List (String × V) → String → List (String × V)
  | [], _ => []
  | (k, v) :: rest, key => if k = key then rest else (k, v) :: alistRemove rest key

/-- `set.add` on the flat instance-tracking set. -/
def setAdd (l : List String) (x : String) : List String :=
  if x ∈ l then l else l ++ [x]

/-- `PluginState._get_action_instance_reference` (`state.py` lines 46-48):
`self.data[device].actions[action][context]` with defaultdict access at each
level; the nodes created on the way are inserted into the tree, so the
embedding returns the reached node together with the updated state. -/
def PluginState.getActionInstanceRef (s : PluginState) (device action context : String) :
    ActionInstanceData × PluginState :=
  let p1 := getOrCreate s.data device emptyDeviceData
  let p2 := getOrCreate p1.1.actions action []
  let p3 := getOrCreate p2.1 context emptyInstanceData
  (p3.1, ⟨alistSet p1.2 device { p1.1 with actions := alistSet p2.2 action p3.2 },
    s.actionInstances⟩)

/-- Mutation of the action-instance node reached by
`_get_action_instance_reference`: Python mutates the returned reference in
place; the embedding writes the modified node back along the same path. -/
def PluginState.modifyInstance (s : PluginState) (device action context : String)
    (f : ActionInstanceData → ActionInstanceData) : PluginState :=
  let p1 := getOrCreate s.data device emptyDeviceData
  let p2 := getOrCreate p1.1.actions action []
  let p3 := getOrCreate p2.1 context emptyInstanceData
  ⟨alistSet p1.2 device
    { p1.1 with actions := alistSet p2.2 action (alistSet p3.2 context (f p3.1)) },
    s.actionInstances⟩

/-- The instance ids nested under a device node (`state.py` lines 70-76): all
context uuids of all of the device's actions. -/
def instancesUnder (dd : DeviceData) : List String :=
  dd.actions.flatMap (fun a => a.2.map (·.1))

/-- `PluginState.add_device`, the `deviceDidConnect` handler (`state.py`
lines 50-60): no-op when the device is already present, else insert a device
node carrying the event's device info. -/
def PluginState.addDevice (s : PluginState) (device : String) (info : JVal) : PluginState :=
  match alistGet s.data device with
  | some _ => s
  | none => ⟨alistSet s.data device ⟨[], some info⟩, s.actionInstances⟩

/-- `PluginState.remove_data_for_device`, the `deviceDidDisconnect` handler
(`state.py` lines 62-77): pop the device node (no-op when absent) and remove
from the flat tracking set exactly the instance ids nested under the removed
node (`set.difference_update`). -/
def PluginState.removeDataForDevice (s : PluginState) (device : String) : PluginState :=
  match alistGet s.data device with
  | none => s
  | some dd =>
    ⟨alistRemove s.data device,
      s.actionInstances.filter (fun i => !((instancesUnder dd).contains i))⟩

/-- `PluginState.set_initial_state`, the `willAppear` handler (`state.py`
lines 79-93): reach (creating if necessary) the instance node, overwrite its
settings, set its coordinates only when the event payload is the
coordinate-bearing shape, and add the instance id to the flat tracking set. -/
def PluginState.setInitialState (s : PluginState) (device action context : String)
    (settings : List (String × JVal)) (coordinates : Option (Int × Int)) : PluginState :=
  let s1 := s.modifyInstance device action context (fun inst =>
    match coordinates with
    | some c => { inst with settings := settings, coordinates := some c }
    | none => { inst with settings := settings })
  ⟨s1.data, setAdd s1.actionInstances context⟩

/-- `PluginState.update_instance_settings`, the `didReceiveSettings` handler
(`state.py` lines 95-101): reach (creating if necessary) the instance node
and overwrite settings only. -/
def PluginState.updateInstanceSettings (s : PluginState) (device action context : String)
    (settings : List (String × JVal)) : PluginState :=
  s.modifyInstance device action context (fun inst => { inst with settings := settings })

/-- The events relevant to the state tracker, including `willDisappear`,
which the tracker registers no handler for. -/
inductive StateEvent where
  | deviceDidConnect (device : String) (info : JVal)
  | deviceDidDisconnect (device : String)
  | willAppear (device action context : String)
      (settings : List (String × JVal)) (coordinates : Option (Int × Int))
  | didReceiveSettings (device action context : String) (settings : List (String × JVal))
  | willDisappear (device action context : String)

/-- Whether an event is a `deviceDidDisconnect`. -/
def StateEvent.isDisconnect : StateEvent → Bool
  | .deviceDidDisconnect _ => true
  | _ => false

/-- Dispatch of one event to the `PluginState` catalog: its
`HandlerMethodCatalogMixin` handlers are keyed by the four tags marked with
`@on` in `state.py`; an event with any other tag — in particular
`willDisappear` — has no registered handler there, so dispatching it leaves
the state unchanged. -/
def PluginState.handleEvent (s : PluginState) : StateEvent → PluginState
  | .deviceDidConnect d info => s.addDevice d info
  | .deviceDidDisconnect d => s.removeDataForDevice d
  | .willAppear d a c st co => s.setInitialState d a c st co
  | .didReceiveSettings d a c st => s.updateInstanceSettings d a c st
  | .willDisappear _ _ _ => s

/-- The instance node currently stored at a full path, without creating
anything. -/
def lookupPath (s : PluginState) (device action context : String) :
    Option ActionInstanceData :=
  match alistGet s.data device with
  | none => none
  | some dd =>
    match alistGet dd.actions action with
    | none => none
    | some im => alistGet im context

/-- The state after a `willAppear` for instance `ctx` followed by a
`willDisappear` for the same instance. -/
def c8State : PluginState :=
  (PluginState.init.handleEvent (.willAppear "dev" "act" "ctx" [] none)).handleEvent
    (.willDisappear "dev" "act" "ctx")

/-- All wire keys of a schema. -/
def schemaKeys (sch : Schema) : List String :=
  sch.required ++ sch.optionalKeys

/-- The conditions under which a payload model's wire form re-validates:
distinct field keys, serialization keys equal to validation keys (true for
`ConfiguredBaseModel` subclasses and alias-free models, false for
`TitleParametersDidChangePayload`), and for discriminated payloads the
discriminator alias not among the branch schemas' other keys. -/
def payloadSpecOk : PayloadSpec → Bool
  | .noPayload => true
  | .dataPayload => true
  | .plainP sch => decide (schemaKeys sch).Nodup && decide (sch.serRequired = sch.required)
  | .cardinalP s m =>
    decide (schemaKeys s).Nodup && decide (schemaKeys m).Nodup &&
      decide (s.serRequired = s.required) && decide (m.serRequired = m.required) &&
      decide ("isInMultiAction" ∉ schemaKeys s) && decide ("isInMultiAction" ∉ schemaKeys m)

/-- The key-uniqueness conditions an event model satisfies by construction:
`event`, `payload` and the top-level field keys are pairwise distinct, and
the payload spec is well-keyed. -/
def shapeOk (sh : EventShape) : Bool :=
  decide (("event" :: "payload" :: sh.topKeys).Nodup) && payloadSpecOk sh.payload

/-- The `keyDown` built-in shape (an entry of `builtinShapes`). -/
def keyDownShape : EventShape :=
  ⟨"keyDown", ["action", "context", "device"],
    .cardinalP singleActionKeyGestureSchema multiActionKeyGestureSchema⟩

/-- A concrete `keyDown` event value: a single-action key press with
coordinates `(1, 0)`, empty settings, `controller = "Keypad"` and no
`state`. -/
def keyDownExample : EventVal :=
  ⟨"keyDown", [.str "com.vendor.plug.btn", .str "ctx-1", .str "dev-1"],
    .singleV ⟨[.obj [("column", .int 1), ("row", .int 0)], .obj []],
      [some (.str "Keypad"), none]⟩⟩

/-- The `titleParametersDidChange` built-in shape (an entry of
`builtinShapes`). -/
def titleParametersShape : EventShape :=
  ⟨"titleParametersDidChange", ["device", "context"],
    .plainP titleParametersPayloadSchema⟩

/-- A concrete `titleParametersDidChange` event value: `Keypad` controller,
coordinates `(0, 0)`, title `Hello`, an opaque `TitleParameters` object,
`state = null`, empty settings. -/
def titleParametersExample : EventVal :=
  ⟨"titleParametersDidChange", [.str "dev-1", .str "ctx-1"],
    .plainV ⟨[.str "Keypad", .obj [("column", .int 0), ("row", .int 0)], .str "Hello",
      .obj [("fontFamily", .str "Arial")], .null, .obj []], []⟩⟩

/-! ## Theorems -/

theorem skipCatalog_eq_not_specEligible (a : Option String) (c : Catalog) :
    skipCatalog a c = !(specEligible a c) := by
  rcases c with ⟨u, ev⟩
  cases a <;> cases u <;> simp [skipCatalog, specEligible, bne]

theorem flatMap_ite_eq_filter_flatMap (l : List Catalog) (p : Catalog → Bool)
    (f : Catalog → List Handler) :
    (l.flatMap fun c => if p c then [] else f c) = (l.filter fun c => !p c).flatMap f := by
  induction l with
  | nil => rfl
  | cons c t ih =>
    cases hp : p c <;> simp [List.filter_cons, hp, ih]

theorem PySet.mem_iter {s : PySet} {hash : Handler → Nat} {f : Handler} :
    f ∈ s.iter hash ↔ f ∈ s.elems := by
  simp only [PySet.iter, List.mem_flatMap, List.mem_range, List.mem_filter, beq_iff_eq]
  constructor
  · rintro ⟨slot, -, hf, -⟩
    exact hf
  · intro hf
    exact ⟨hash f % 8, Nat.mod_lt _ (by omega), hf, rfl⟩

theorem PySet.nodup_iter {s : PySet} (hs : s.elems.Nodup) (hash : Handler → Nat) :
    (s.iter hash).Nodup := by
  refine List.nodup_flatMap.2 ⟨fun slot _ => hs.filter _, ?_⟩
  refine (List.pairwise_lt_range 8).imp ?_
  intro i j hij x hxi hxj
  simp only [List.mem_filter, beq_iff_eq] at hxi hxj
  omega

theorem alistGet_upd {V : Type} (l : List (String × V)) (k : String) (f : V → V) (d : V)
    (k' : String) :
    alistGet (alistUpd l k f d) k' =
      if k' = k then some (f ((alistGet l k).getD d)) else alistGet l k' := by
  induction l with
  | nil =>
    by_cases h : k' = k
    · subst h
      simp [alistUpd, alistGet]
    · have h2 : ¬(k = k') := fun hh => h hh.symm
      simp [alistUpd, alistGet, h, h2]
  | cons hd tl ih =>
    obtain ⟨k0, v0⟩ := hd
    by_cases h0 : k0 = k
    · subst h0
      by_cases h' : k' = k0
      · subst h'
        simp [alistUpd, alistGet]
      · have h2 : ¬(k0 = k') := fun hh => h' hh.symm
        simp [alistUpd, alistGet, h', h2]
    · by_cases h' : k0 = k'
      · have hk : ¬(k' = k) := fun hh => h0 (h'.trans hh)
        simp [alistUpd, alistGet, h0, h', hk]
      · simp [alistUpd, alistGet, h0, h', ih]

theorem catalogElems_on (c : Catalog) (name n : String) (g : Handler) :
    catalogElems (c.on n g) name =
      if name = n then
        (if g ∈ catalogElems c n then catalogElems c n else catalogElems c n ++ [g])
      else catalogElems c name := by
  unfold catalogElems Catalog.on
  rw [alistGet_upd]
  by_cases h : name = n
  · subst h
    rw [if_pos rfl]
    unfold PySet.add
    split <;> simp
  · simp [h]

theorem mem_catalogElems_onAll (c : Catalog) (regs : List (String × Handler))
    (name : String) (f : Handler) :
    f ∈ catalogElems (c.onAll regs) name ↔
      f ∈ catalogElems c name ∨ (name, f) ∈ regs := by
  induction regs generalizing c with
  | nil => simp [Catalog.onAll]
  | cons r rest ih =>
    obtain ⟨n, g⟩ := r
    have step : Catalog.onAll c ((n, g) :: rest) = Catalog.onAll (c.on n g) rest := rfl
    rw [step, ih, catalogElems_on]
    by_cases h : name = n
    · subst h
      by_cases hg : g ∈ catalogElems c name
      · rw [if_pos rfl, if_pos hg]
        simp only [List.mem_cons, Prod.mk.injEq, eq_self_iff_true, true_and]
        constructor
        · tauto
        · rintro (hf | rfl | hf) <;> tauto
      · rw [if_pos rfl, if_neg hg]
        simp only [List.mem_append, List.mem_singleton, List.mem_cons, List.not_mem_nil,
          or_false, Prod.mk.injEq, eq_self_iff_true, true_and]
        constructor
        · rintro ((hf | rfl) | hf) <;> tauto
        · rintro (hf | rfl | hf) <;> tauto
    · rw [if_neg h]
      simp only [List.mem_cons, Prod.mk.injEq]
      constructor
      · tauto
      · rintro (hf | ⟨rfl, rfl⟩ | hf)
        · tauto
        · exact absurd rfl h
        · tauto

theorem nodup_catalogElems_onAll (c : Catalog) (regs : List (String × Handler))
    (hc : ∀ name, (catalogElems c name).Nodup) :
    ∀ name, (catalogElems (c.onAll regs) name).Nodup := by
  induction regs generalizing c with
  | nil => exact hc
  | cons r rest ih =>
    obtain ⟨n, g⟩ := r
    have step : Catalog.onAll c ((n, g) :: rest) = Catalog.onAll (c.on n g) rest := rfl
    rw [step]
    refine ih _ ?_
    intro name
    rw [catalogElems_on]
    by_cases h : name = n
    · subst h
      by_cases hg : g ∈ catalogElems c name
      · rw [if_pos rfl, if_pos hg]
        exact hc name
      · rw [if_pos rfl, if_neg hg]
        refine (hc name).append (List.nodup_singleton g) ?_
        intro a ha hb
        rw [List.mem_singleton] at hb
        subst hb
        exact hg ha
    · rw [if_neg h]
      exact hc name

theorem mem_getEventHandlers {c : Catalog} {hash : Handler → Nat} {name : String}
    {f : Handler} :
    f ∈ c.getEventHandlers hash name ↔ f ∈ catalogElems c name := by
  unfold Catalog.getEventHandlers catalogElems
  cases hget : alistGet c.events name with
  | none => simp [PySet.empty]
  | some s => simp [PySet.mem_iter]

theorem nodup_getEventHandlers {c : Catalog} (hash : Handler → Nat) {name : String}
    (h : (catalogElems c name).Nodup) :
    (c.getEventHandlers hash name).Nodup := by
  unfold Catalog.getEventHandlers
  unfold catalogElems at h
  cases hget : alistGet c.events name with
  | none => simp
  | some s =>
    rw [hget] at h
    exact PySet.nodup_iter h hash

/-- C1: for every registered catalog and every call to
`HandlersRegistry.get_event_handlers(event_name, event_action_uuid)`, the
handlers yielded are exactly those of the eligible catalogs, in catalog
registration order: when `event_action_uuid` is non-null, a scoped catalog (an
`Action` with a uuid) contributes its handlers if and only if its uuid equals
`event_action_uuid`, while global (non-`Action`) catalogs always contribute;
when `event_action_uuid` is null no catalog is filtered out. -/
theorem c1_registry_scoping (r : HandlersRegistry) (hash : Handler → Nat)
    (event_name : String) (event_action_uuid : Option String) :
    r.getEventHandlers hash event_name event_action_uuid =
      (r.catalogs.filter (specEligible event_action_uuid)).flatMap
        (fun c => c.getEventHandlers hash event_name) := by
  unfold HandlersRegistry.getEventHandlers
  simp only [skipCatalog_eq_not_specEligible]
  rw [flatMap_ite_eq_filter_flatMap]
  simp [Bool.not_not]

/-- C2 counterexample: registering handler 2 then handler 1 for `keyDown` on
an `ActionBase` catalog and retrieving them does not yield them in
registration order, because `_events` stores handlers in a CPython `set`.
The hash assignment here is the identity, which gives the two function objects
distinct home slots, a legal hash assignment for CPython. -/
theorem c2_counterexample :
    c2Catalog.getEventHandlers (fun h => h) "keyDown" ≠ [2, 1] := by decide

/-- C2 (amended): registering several handler functions for a tag via
`ActionBase.on` and retrieving them with `get_event_handlers` yields each
registered handler exactly once (de-duplication by identity), but in the
hash-table iteration order of the underlying `set`, which need not be the
registration order. -/
theorem c2_handlers_set_semantics (u : Option String) (regs : List (String × Handler))
    (hash : Handler → Nat) (event_name : String) (f : Handler) :
    (((Catalog.mk u []).onAll regs).getEventHandlers hash event_name).Nodup ∧
      (f ∈ ((Catalog.mk u []).onAll regs).getEventHandlers hash event_name ↔
        (event_name, f) ∈ regs) := by
  constructor
  · refine nodup_getEventHandlers hash ?_
    refine nodup_catalogElems_onAll _ regs ?_ event_name
    intro name
    simp [catalogElems, alistGet, PySet.empty]
  · rw [mem_getEventHandlers, mem_catalogElems_onAll]
    simp [catalogElems, alistGet, PySet.empty]

theorem validateJson_fst (s : EventAdapterState) (raw : RawMsg) :
    (s.validateJson raw).1 = decodeEventWith (effModels s) raw := by
  rcases s with ⟨ms, ns, ta⟩
  cases ta <;>
    simp [EventAdapterState.validateJson, EventAdapterState.typeAdapterGet, effModels]

theorem effModels_validateJson (s : EventAdapterState) (raw : RawMsg) :
    effModels (s.validateJson raw).2 = effModels s := by
  rcases s with ⟨ms, ns, ta⟩
  cases ta <;>
    simp [EventAdapterState.validateJson, EventAdapterState.typeAdapterGet, effModels]

theorem eventNames_validateJson (s : EventAdapterState) (raw : RawMsg) :
    (s.validateJson raw).2.eventNames = s.eventNames := by
  rcases s with ⟨ms, ns, ta⟩
  cases ta <;>
    simp [EventAdapterState.validateJson, EventAdapterState.typeAdapterGet]

theorem eventNameExists_validateJson (s : EventAdapterState) (raw : RawMsg) (n : String) :
    (s.validateJson raw).2.eventNameExists n = s.eventNameExists n := by
  unfold EventAdapterState.eventNameExists
  rw [eventNames_validateJson]

theorem streamKeep_congr {s s' : EventAdapterState} (h1 : effModels s' = effModels s)
    (h2 : s'.eventNames = s.eventNames) : streamKeep s' = streamKeep s := by
  funext m
  unfold streamKeep EventAdapterState.eventNameExists
  rw [h1, h2]

theorem streamEventData_fst (s : EventAdapterState) (msgs : List RawMsg) :
    (streamEventData s msgs).1 = msgs.filterMap (streamKeep s) := by
  induction msgs generalizing s with
  | nil => rfl
  | cons m rest ih =>
    have hs : streamKeep (s.validateJson m).2 = streamKeep s :=
      streamKeep_congr (effModels_validateJson s m) (eventNames_validateJson s m)
    have hm : streamKeep s m =
        match decodeEventWith (effModels s) m with
        | .error _ => none
        | .ok d => if s.eventNameExists d.tag then some d else none := rfl
    simp only [streamEventData, validateJson_fst, eventNameExists_validateJson,
      List.filterMap_cons]
    cases hd : decodeEventWith (effModels s) m with
    | error e =>
      rw [hd] at hm
      simp [hm, ih, hs]
    | ok d =>
      rw [hd] at hm
      by_cases hex : s.eventNameExists d.tag = true
      · simp [hm, hex, ih, hs]
      · rw [Bool.not_eq_true] at hex
        simp [hm, hex, ih, hs]

/-- C4 counterexample: on an adapter built with only `shapeA`, after one
`validate_json` call (which builds and caches the `TypeAdapter`) followed by
`add_model(shapeB)`, the model for tag `b` is registered and its name is
known, yet a subsequent `validate_json` of a message with tag `b` fails with
an unknown-tag error instead of decoding into `shapeB`, because the cached
adapter from the earlier decode is reused. -/
theorem c4_stale_adapter_counterexample :
    shapeB ∈ c4AfterAdd.models ∧
      c4AfterAdd.eventNameExists "b" = true ∧
      (c4AfterAdd.validateJson (.text (.obj [("event", .str "b")]))).1 =
        .error (.unknownTag "b") :=
  ⟨by decide, by decide, rfl⟩

/-- C4 (amended): each `validate_json` call resolves decoding against the
model set recorded by the cached `TypeAdapter` when one exists, and against
the current models otherwise; a `validate_json` call freezes that set (the
cache is built at the first decode), and `add_model` after a decode call does
not change the set decoding resolves against — only models added before the
first decode are honoured. -/
theorem c4_adapter_cache_semantics (s : EventAdapterState) (raw : RawMsg) (m : EventShape) :
    (s.validateJson raw).1 = decodeEventWith (effModels s) raw ∧
    effModels (s.validateJson raw).2 = effModels s ∧
    effModels ((s.validateJson raw).2.addModel m) = effModels s ∧
    effModels (s.addModel m) =
      (if s.typeAdapter = none then s.models ++ [m] else effModels s) := by
  refine ⟨validateJson_fst s raw, effModels_validateJson s raw, ?_, ?_⟩
  · rcases s with ⟨ms, ns, ta⟩
    cases ta <;>
      simp [EventAdapterState.validateJson, EventAdapterState.typeAdapterGet,
        EventAdapterState.addModel, effModels]
  · rcases s with ⟨ms, ns, ta⟩
    cases ta <;> simp [EventAdapterState.addModel, effModels]

/-- C6: `register_action` raises exactly when the catalog declares a handler
for an event name the active adapter does not know; in that case nothing is
registered (the returned computation carries no new state, so the registry is
unchanged and no handler of the catalog is ever eligible), and when all
declared names are known the catalog is appended to the handlers registry and
no error is raised. -/
theorem c6_register_action_validation (s : PluginManagerState) (c : Catalog) :
    ((∀ n ∈ c.getRegisteredEventNames, s.eventAdapter.eventNameExists n = true) ↔
      registerAction s c = .ok ⟨s.handlersRegistry.register c, s.eventAdapter⟩) ∧
    ((∃ n ∈ c.getRegisteredEventNames, s.eventAdapter.eventNameExists n = false) ↔
      ∃ msg, registerAction s c = .error (.keyError msg)) := by
  unfold registerAction ensureCatalogHasValidEvents
  cases hf : c.getRegisteredEventNames.find? (fun n => !(s.eventAdapter.eventNameExists n)) with
  | none =>
    constructor
    · constructor
      · intro _
        rfl
      · intro _ n hn
        have h := List.find?_eq_none.mp hf n hn
        simpa using h
    · constructor
      · rintro ⟨n, hn, hfalse⟩
        have h := List.find?_eq_none.mp hf n hn
        rw [hfalse] at h
        simp at h
      · rintro ⟨msg, hmsg⟩
        exact Except.noConfusion hmsg
  | some n =>
    have hmem : n ∈ c.getRegisteredEventNames := List.mem_of_find?_eq_some hf
    have hp := List.find?_some hf
    constructor
    · constructor
      · intro hall
        have h := hall n hmem
        rw [h] at hp
        simp at hp
      · intro hok
        exact Except.noConfusion hok
    · constructor
      · intro _
        exact ⟨_, rfl⟩
      · intro _
        exact ⟨n, hmem, by simpa using hp⟩

/-- C6 witness: registering a catalog that declares a handler for the unknown
tag `zzz` on a manager whose adapter knows only `a` raises the key error. -/
theorem c6_register_action_validation_witness :
    ∃ msg, registerAction ⟨HandlersRegistry.empty, EventAdapterState.init [shapeA]⟩
      ((Catalog.mk none []).on "zzz" 1) = .error (.keyError msg) :=
  (c6_register_action_validation ⟨HandlersRegistry.empty, EventAdapterState.init [shapeA]⟩
    ((Catalog.mk none []).on "zzz" 1)).2.mp ⟨"zzz", by decide, by decide⟩

/-- C7: a handler whose declared parameters include `command_sender` has the
shared command sender bound before invocation; one that declares only the
`event_data` parameter is invoked with the event alone; and a handler whose
signature matches neither shape makes dispatch raise `TypeError` at the first
matching event, before that handler is invoked (earlier handlers in the same
dispatch have already run). -/
theorem c7_command_sender_binding (h : PyHandler) (pre rest : List PyHandler) :
    (isBindableHandler h = true → injectCommandSender h = .ok (.withSender h)) ∧
    (isBindableHandler h = false → isNotBindableHandler h = true →
      injectCommandSender h = .ok (.plain h)) ∧
    (isBindableHandler h = false → isNotBindableHandler h = false →
      injectCommandSender h = .error .typeError) ∧
    ((∀ g ∈ pre, goodHandler g = true) → goodHandler h = false →
      dispatchHandlers (pre ++ h :: rest) =
        (pre.map (fun g => ⟨g.id, isBindableHandler g⟩), some PyErr.typeError)) := by
  refine ⟨?_, ?_, ?_, ?_⟩
  · intro hb
    simp [injectCommandSender, hb]
  · intro hb hnb
    simp [injectCommandSender, hb, hnb]
  · intro hb hnb
    simp [injectCommandSender, hb, hnb]
  · intro hgood hbad
    rw [goodHandler, Bool.or_eq_false_iff] at hbad
    induction pre with
    | nil =>
      simp [dispatchHandlers, injectCommandSender, hbad.1, hbad.2]
    | cons g pre ih =>
      have hg := hgood g (List.mem_cons_self g pre)
      have hrest : ∀ x ∈ pre, goodHandler x = true :=
        fun x hx => hgood x (List.mem_cons_of_mem _ hx)
      cases hb : isBindableHandler g with
      | true =>
        simp [dispatchHandlers, injectCommandSender, hb, ih hrest]
      | false =>
        have hnb : isNotBindableHandler g = true := by
          rw [goodHandler, hb] at hg
          simpa using hg
        simp [dispatchHandlers, injectCommandSender, hb, hnb, ih hrest]

/-- C7 witness: dispatching to a well-formed plain handler, a well-formed
bindable handler, and then a handler whose signature matches neither shape
invokes the first two (binding the sender only for the second) and stops
with `TypeError` before invoking the third. -/
theorem c7_command_sender_binding_witness :
    dispatchHandlers ([⟨1, ["event_data"]⟩, ⟨2, ["event_data", "command_sender"]⟩] ++
        ⟨3, ["event_data", "extra"]⟩ :: []) =
      ([⟨1, ["event_data"]⟩, ⟨2, ["event_data", "command_sender"]⟩].map
        (fun g => ⟨g.id, isBindableHandler g⟩), some PyErr.typeError) :=
  (c7_command_sender_binding ⟨3, ["event_data", "extra"]⟩
    [⟨1, ["event_data"]⟩, ⟨2, ["event_data", "command_sender"]⟩] []).2.2.2
    (by decide) (by decide)

/-- C3: a raw message on which decoding fails (malformed JSON, an
unrecognized tag, or a payload failing validation — all signalled as the
validation error the stream catches) is dropped: the dispatcher's event
stream over any message sequence containing it equals the stream with that
message removed, so no handler is ever invoked for it (handlers run only for
yielded events) and all other messages are processed as before, with no
exception escaping (the embedding is a total function). -/
theorem c3_decode_failure_dropped (s : EventAdapterState) (pre post : List RawMsg)
    (m : RawMsg) (e : DecodeErr)
    (hm : decodeEventWith (effModels s) m = .error e) :
    (streamEventData s (pre ++ m :: post)).1 = (streamEventData s (pre ++ post)).1 := by
  rw [streamEventData_fst, streamEventData_fst]
  have hkeep : streamKeep s m = none := by
    unfold streamKeep
    rw [hm]
  simp [List.filterMap_append, List.filterMap_cons, hkeep]

/-- C3 witness: with the default shapes, a malformed message between two
well-formed `systemDidWakeUp` messages is dropped and the stream equals the
stream without it. -/
theorem c3_decode_failure_dropped_witness :
    (streamEventData (EventAdapterState.init builtinShapes)
        ([RawMsg.text (.obj [("event", .str "systemDidWakeUp")])] ++
          RawMsg.malformed :: [RawMsg.text (.obj [("event", .str "systemDidWakeUp")])])).1 =
      (streamEventData (EventAdapterState.init builtinShapes)
        ([RawMsg.text (.obj [("event", .str "systemDidWakeUp")])] ++
          [RawMsg.text (.obj [("event", .str "systemDidWakeUp")])])).1 :=
  c3_decode_failure_dropped (EventAdapterState.init builtinShapes)
    [RawMsg.text (.obj [("event", .str "systemDidWakeUp")])]
    [RawMsg.text (.obj [("event", .str "systemDidWakeUp")])]
    RawMsg.malformed DecodeErr.invalidJson rfl

theorem eventStreamRun_runToEnd (queue : List QItem) :
    eventStreamRun queue .runToEnd =
      (if hasSentinal queue then some ⟨msgsBeforeSentinal queue, true, .sentinal⟩
       else none) := by
  induction queue with
  | nil => rfl
  | cons q rest ih =>
    cases q with
    | sentinal => simp [eventStreamRun, hasSentinal, msgsBeforeSentinal]
    | msg m =>
      simp only [eventStreamRun, hasSentinal, msgsBeforeSentinal, ih]
      by_cases h : hasSentinal rest = true
      · simp [h]
      · rw [Bool.not_eq_true] at h
        simp [h]

/-- C5: a terminating run of `event_stream` always has `stop()` invoked as
cleanup (sentinel break, consumer close, or exception thrown in); it never
yields a message past the first sentinel (the yielded list is a prefix of the
messages queued before it); a run that ends cleanly by the loop's own `break`
dequeued the sentinel and yielded precisely the messages preceding it; and
the exhausting consumer's run terminates exactly when the queue trace carries
a sentinel, yielding precisely the messages before it. -/
theorem c5_event_stream_lifecycle (queue : List QItem) (mode : ConsumerMode) :
    (∀ r, eventStreamRun queue mode = some r →
      r.stopCalled = true ∧
      r.yielded = (msgsBeforeSentinal queue).take r.yielded.length ∧
      (r.endKind = .sentinal →
        hasSentinal queue = true ∧ r.yielded = msgsBeforeSentinal queue)) ∧
    eventStreamRun queue .runToEnd =
      (if hasSentinal queue then some ⟨msgsBeforeSentinal queue, true, .sentinal⟩
       else none) := by
  refine ⟨?_, eventStreamRun_runToEnd queue⟩
  induction queue generalizing mode with
  | nil =>
    intro r hr
    simp [eventStreamRun] at hr
  | cons q rest ih =>
    intro r hr
    cases q with
    | sentinal =>
      simp only [eventStreamRun, Option.some.injEq] at hr
      subst hr
      refine ⟨rfl, by simp, fun _ => ⟨by simp [hasSentinal], by simp [msgsBeforeSentinal]⟩⟩
    | msg m =>
      have key : ∀ (mode' : ConsumerMode) (r' : StreamRun),
          eventStreamRun rest mode' = some r' →
          r = ⟨m :: r'.yielded, r'.stopCalled, r'.endKind⟩ →
          r.stopCalled = true ∧
          r.yielded = (msgsBeforeSentinal (.msg m :: rest)).take r.yielded.length ∧
          (r.endKind = .sentinal →
            hasSentinal (.msg m :: rest) = true ∧
            r.yielded = msgsBeforeSentinal (.msg m :: rest)) := by
        intro mode' r' hr' hrr
        obtain ⟨h1, h2, h3⟩ := ih mode' r' hr'
        subst hrr
        refine ⟨h1, ?_, ?_⟩
        · simpa [msgsBeforeSentinal, List.take_succ_cons] using h2
        · intro hk
          obtain ⟨hs, hy⟩ := h3 hk
          exact ⟨by simpa [hasSentinal] using hs, by simpa [msgsBeforeSentinal] using hy⟩
      cases mode with
      | runToEnd =>
        simp only [eventStreamRun] at hr
        obtain ⟨r', hr', hrr⟩ := Option.map_eq_some'.mp hr
        exact key .runToEnd r' hr' hrr.symm
      | closeAfter k =>
        cases k with
        | zero =>
          simp only [eventStreamRun, Option.some.injEq] at hr
          subst hr
          refine ⟨rfl, by simp [msgsBeforeSentinal], ?_⟩
          intro hk
          exact absurd hk (by simp)
        | succ k =>
          simp only [eventStreamRun] at hr
          obtain ⟨r', hr', hrr⟩ := Option.map_eq_some'.mp hr
          exact key (.closeAfter k) r' hr' hrr.symm
      | throwAfter k =>
        cases k with
        | zero =>
          simp only [eventStreamRun, Option.some.injEq] at hr
          subst hr
          refine ⟨rfl, by simp [msgsBeforeSentinal], ?_⟩
          intro hk
          exact absurd hk (by simp)
        | succ k =>
          simp only [eventStreamRun] at hr
          obtain ⟨r', hr', hrr⟩ := Option.map_eq_some'.mp hr
          exact key (.throwAfter k) r' hr' hrr.symm

/-- C5 witness: the exhausting consumer over the trace
`[msg e1, msg e2, sentinel, msg late]` yields exactly `e1, e2`, ends cleanly
at the sentinel, and has `stop()` invoked. -/
theorem c5_event_stream_lifecycle_witness :
    eventStreamRun [QItem.msg "e1", QItem.msg "e2", QItem.sentinal, QItem.msg "late"]
        .runToEnd = some ⟨["e1", "e2"], true, .sentinal⟩ ∧
      (["e1", "e2"] : List String) = ["e1", "e2"] ∧
      ((EndKind.sentinal = EndKind.sentinal) →
        hasSentinal [QItem.msg "e1", QItem.msg "e2", QItem.sentinal, QItem.msg "late"] = true) := by
  have h := (c5_event_stream_lifecycle
    [QItem.msg "e1", QItem.msg "e2", QItem.sentinal, QItem.msg "late"] .runToEnd).1
    ⟨["e1", "e2"], true, .sentinal⟩ (by decide)
  exact ⟨by decide, rfl, fun hk => (h.2.2 hk).1⟩

theorem mem_setAdd_self (l : List String) (x : String) : x ∈ setAdd l x := by
  unfold setAdd
  by_cases h : x ∈ l <;> simp [h]

theorem mem_setAdd_of_mem {l : List String} {i : String} (x : String) (h : i ∈ l) :
    i ∈ setAdd l x := by
  unfold setAdd
  by_cases hx : x ∈ l <;> simp [hx, h]

/-- C8 counterexample: after a `willAppear` for instance `ctx` is handled,
handling a `willDisappear` for the same instance does not evict it from the
flat tracking set — `PluginState` registers no `willDisappear` handler, so
the instance id is still tracked, contrary to the claimed eviction at that
point. -/
theorem c8_will_disappear_counterexample :
    "ctx" ∈ c8State.actionInstances := by decide

/-- C8 (amended): an instance id carried by a handled `willAppear` event is in
the flat tracking set from that moment on; handling any event other than a
`deviceDidDisconnect` (in particular a `willDisappear`) never evicts any
member; and handling `deviceDidDisconnect` evicts exactly the instance ids
nested under the removed device's node. -/
theorem c8_instance_tracking (s : PluginState) :
    (∀ d a c st co, c ∈ (s.handleEvent (.willAppear d a c st co)).actionInstances) ∧
    (∀ e, StateEvent.isDisconnect e = false →
      ∀ i ∈ s.actionInstances, i ∈ (s.handleEvent e).actionInstances) ∧
    (∀ d i, i ∈ (s.handleEvent (.deviceDidDisconnect d)).actionInstances ↔
      (i ∈ s.actionInstances ∧ i ∉ ((alistGet s.data d).map instancesUnder).getD [])) := by
  refine ⟨?_, ?_, ?_⟩
  · intro d a c st co
    exact mem_setAdd_self _ c
  · intro e he i hi
    cases e with
    | deviceDidConnect d info =>
      unfold PluginState.handleEvent PluginState.addDevice
      cases hd : alistGet s.data d <;> simp [hd] <;> exact hi
    | deviceDidDisconnect d => simp [StateEvent.isDisconnect] at he
    | willAppear d a c st co =>
      exact mem_setAdd_of_mem c hi
    | didReceiveSettings d a c st => exact hi
    | willDisappear d a c => exact hi
  · intro d i
    unfold PluginState.handleEvent PluginState.removeDataForDevice
    cases hd : alistGet s.data d with
    | none => simp [hd]
    | some dd =>
      simp [hd, List.mem_filter]

/-- C8 witness: `ctx` enters the tracking set at its `willAppear` and survives
the subsequent `willDisappear`, instantiating the first two conjuncts of the
amended theorem at concrete inputs. -/
theorem c8_instance_tracking_witness :
    "ctx" ∈ ((PluginState.init.handleEvent
        (.willAppear "dev" "act" "ctx" [] none)).handleEvent
        (.willDisappear "dev" "act" "ctx")).actionInstances :=
  (c8_instance_tracking (PluginState.init.handleEvent
      (.willAppear "dev" "act" "ctx" [] none))).2.1
    (.willDisappear "dev" "act" "ctx") rfl "ctx"
    ((c8_instance_tracking PluginState.init).1 "dev" "act" "ctx" [] none)

theorem alistSet_eq_upd {V : Type} (l : List (String × V)) (k : String) (v : V) :
    alistSet l k v = alistUpd l k (fun _ => v) v := by
  induction l with
  | nil => rfl
  | cons hd tl ih =>
    obtain ⟨k0, w⟩ := hd
    simp only [alistSet, alistUpd]
    by_cases h : k0 = k <;> simp [h, ih]

theorem alistGet_set {V : Type} (l : List (String × V)) (k : String) (v : V) (k' : String) :
    alistGet (alistSet l k v) k' = if k' = k then some v else alistGet l k' := by
  rw [alistSet_eq_upd, alistGet_upd]

theorem alistGet_append_right {V : Type} {l1 : List (String × V)} (l2 : List (String × V))
    {k : String} (h : alistGet l1 k = none) :
    alistGet (l1 ++ l2) k = alistGet l2 k := by
  induction l1 with
  | nil => rfl
  | cons hd tl ih =>
    obtain ⟨k0, v0⟩ := hd
    by_cases h0 : k0 = k
    · simp [alistGet, h0] at h
    · simp only [alistGet, h0, if_neg h0, List.cons_append] at h ⊢
      exact ih h

theorem alistGet_append_left {V : Type} {l1 : List (String × V)} (l2 : List (String × V))
    {k : String} {v : V} (h : alistGet l1 k = some v) :
    alistGet (l1 ++ l2) k = some v := by
  induction l1 with
  | nil => simp [alistGet] at h
  | cons hd tl ih =>
    obtain ⟨k0, v0⟩ := hd
    by_cases h0 : k0 = k
    · simp only [alistGet, if_pos h0, List.cons_append] at h ⊢
      exact h
    · simp only [alistGet, if_neg h0, List.cons_append] at h ⊢
      exact ih h

/-- C9: reading a full path that is not yet present (any missing level) never
raises — the embedding is a total function mirroring the defaultdict access —
and returns the freshly created default node, whose settings map is empty;
every missing key along the way is created and inserted, so the path exists
afterwards. -/
theorem c9_default_path_creation (s : PluginState) (device action context : String)
    (h : lookupPath s device action context = none) :
    (s.getActionInstanceRef device action context).1 = emptyInstanceData ∧
    (s.getActionInstanceRef device action context).1.settings = [] ∧
    lookupPath (s.getActionInstanceRef device action context).2 device action context =
      some emptyInstanceData := by
  unfold lookupPath at h ⊢
  unfold PluginState.getActionInstanceRef getOrCreate
  cases hd : alistGet s.data device with
  | none =>
    simp [hd, alistGet_set, alistGet, emptyDeviceData, emptyInstanceData]
  | some dd =>
    simp only [hd] at h ⊢
    cases hact : alistGet dd.actions action with
    | none =>
      simp [hact, alistGet_set, alistGet, emptyInstanceData]
    | some im =>
      simp only [hact] at h ⊢
      cases hctx : alistGet im context with
      | some inst =>
        rw [hctx] at h
        exact Option.noConfusion h
      | none =>
        have happ := alistGet_append_right [(context, emptyInstanceData)] hctx
        simp [alistGet, emptyInstanceData] at happ
        simp [hctx, alistGet_set, alistGet, emptyInstanceData, happ]

/-- C9 witness: on the fresh plugin state, reading
`tree[dev].actions[act][ctx].settings` returns the empty map and inserts the
path. -/
theorem c9_default_path_creation_witness :
    (PluginState.init.getActionInstanceRef "dev" "act" "ctx").1 = emptyInstanceData ∧
      (PluginState.init.getActionInstanceRef "dev" "act" "ctx").1.settings = [] ∧
      lookupPath (PluginState.init.getActionInstanceRef "dev" "act" "ctx").2
        "dev" "act" "ctx" = some emptyInstanceData :=
  c9_default_path_creation PluginState.init "dev" "act" "ctx" rfl

theorem alistGet_zip_not_mem {k : String} (ks : List String) (vs : List JVal)
    (h : k ∉ ks) : alistGet (ks.zip vs) k = none := by
  induction ks generalizing vs with
  | nil => rfl
  | cons k0 ks ih =>
    cases vs with
    | nil => rfl
    | cons v0 vs =>
      have h1 : ¬(k0 = k) := by
        intro hh
        subst hh
        exact h (List.mem_cons_self _ _)
      have h2 : k ∉ ks := fun hm => h (List.mem_cons_of_mem _ hm)
      have hcons : alistGet ((k0, v0) :: ks.zip vs) k = alistGet (ks.zip vs) k := by
        simp [alistGet, h1]
      rw [List.zip_cons_cons, hcons]
      exact ih vs h2

theorem alistGet_optFields_not_mem {k : String} (ks : List String) (os : List (Option JVal))
    (h : k ∉ ks) : alistGet (optFields ks os) k = none := by
  induction ks generalizing os with
  | nil => rfl
  | cons k0 ks ih =>
    cases os with
    | nil => rfl
    | cons o os =>
      have h1 : ¬(k0 = k) := by
        intro hh
        subst hh
        exact h (List.mem_cons_self _ _)
      have h2 : k ∉ ks := fun hm => h (List.mem_cons_of_mem _ hm)
      have htail := ih os h2
      simp only [optFields] at htail ⊢
      rw [List.zip_cons_cons, List.filterMap_cons]
      cases o with
      | none => simpa using htail
      | some j =>
        show alistGet ((k0, j) :: (ks.zip os).filterMap _) k = none
        have hcons : alistGet ((k0, j) ::
            (ks.zip os).filterMap (fun kv => kv.2.map (fun j => (kv.1, j)))) k =
              alistGet ((ks.zip os).filterMap (fun kv => kv.2.map (fun j => (kv.1, j)))) k := by
          simp [alistGet, h1]
        rw [hcons]
        exact htail

theorem mapM_getReq_ok (ks : List String) (vs : List JVal) (pre post : List (String × JVal))
    (hlen : ks.length = vs.length) (hnd : ks.Nodup)
    (hpre : ∀ k ∈ ks, alistGet pre k = none) :
    ks.mapM (getReq (pre ++ (ks.zip vs ++ post))) = Except.ok vs := by
  induction ks generalizing vs pre with
  | nil =>
    cases vs with
    | nil => rfl
    | cons v vs => simp at hlen
  | cons k ks ih =>
    cases vs with
    | nil => simp at hlen
    | cons v vs =>
      have hknotks : k ∉ ks := (List.nodup_cons.mp hnd).1
      have hndks : ks.Nodup := (List.nodup_cons.mp hnd).2
      have hk : alistGet (pre ++ ((k, v) :: (ks.zip vs ++ post))) k = some v := by
        rw [alistGet_append_right _ (hpre k (List.mem_cons_self _ _))]
        simp [alistGet]
      have hpre' : ∀ k' ∈ ks, alistGet (pre ++ [(k, v)]) k' = none := by
        intro k' hk'
        rw [alistGet_append_right _ (hpre k' (List.mem_cons_of_mem _ hk'))]
        have hne : ¬(k = k') := by
          intro hh
          subst hh
          exact hknotks hk'
        simp [alistGet, hne]
      have hassoc : pre ++ ((k, v) :: (ks.zip vs ++ post)) =
          (pre ++ [(k, v)]) ++ (ks.zip vs ++ post) := by simp
      show (k :: ks).mapM (getReq (pre ++ ((k, v) :: (ks.zip vs ++ post)))) =
        Except.ok (v :: vs)
      rw [List.mapM_cons]
      have hhead : getReq (pre ++ ((k, v) :: (ks.zip vs ++ post))) k = Except.ok v := by
        unfold getReq
        rw [hk]
      rw [hhead, hassoc, ih vs (pre ++ [(k, v)]) (by simpa using hlen) hndks hpre']
      rfl

theorem map_alistGet_optFields (ks : List String) (os : List (Option JVal))
    (pre : List (String × JVal)) (hlen : ks.length = os.length) (hnd : ks.Nodup)
    (hpre : ∀ k ∈ ks, alistGet pre k = none) :
    ks.map (alistGet (pre ++ optFields ks os)) = os := by
  induction ks generalizing os pre with
  | nil =>
    cases os with
    | nil => rfl
    | cons o os => simp at hlen
  | cons k ks ih =>
    cases os with
    | nil => simp at hlen
    | cons o os =>
      have hknotks : k ∉ ks := (List.nodup_cons.mp hnd).1
      have hndks : ks.Nodup := (List.nodup_cons.mp hnd).2
      have hlen' : ks.length = os.length := by simpa using hlen
      have hpre'' : ∀ k' ∈ ks, alistGet pre k' = none :=
        fun k' hk' => hpre k' (List.mem_cons_of_mem _ hk')
      cases o with
      | none =>
        have hof : optFields (k :: ks) (none :: os) = optFields ks os := by
          simp [optFields, List.filterMap_cons]
        rw [List.map_cons, hof]
        have hhead : alistGet (pre ++ optFields ks os) k = none := by
          rw [alistGet_append_right _ (hpre k (List.mem_cons_self _ _))]
          exact alistGet_optFields_not_mem ks os hknotks
        rw [hhead]
        congr 1
        exact ih os pre hlen' hndks hpre''
      | some j =>
        have hof : optFields (k :: ks) (some j :: os) = (k, j) :: optFields ks os := by
          simp [optFields, List.filterMap_cons]
        rw [List.map_cons, hof]
        have hhead : alistGet (pre ++ (k, j) :: optFields ks os) k = some j := by
          rw [alistGet_append_right _ (hpre k (List.mem_cons_self _ _))]
          simp [alistGet]
        rw [hhead]
        congr 1
        have hassoc : pre ++ (k, j) :: optFields ks os =
            (pre ++ [(k, j)]) ++ optFields ks os := by simp
        rw [hassoc]
        refine ih os (pre ++ [(k, j)]) hlen' hndks ?_
        intro k' hk'
        rw [alistGet_append_right _ (hpre'' k' hk')]
        have hne : ¬(k = k') := by
          intro hh
          subst hh
          exact hknotks hk'
        simp [alistGet, hne]

theorem decodeSchema_encodeSchema (sch : Schema) (v : SchemaVal)
    (pre : List (String × JVal)) (hwf : v.wfb sch = true)
    (hnd : (schemaKeys sch).Nodup)
    (hpre : ∀ k ∈ schemaKeys sch, alistGet pre k = none)
    (hser : sch.serRequired = sch.required) :
    decodeSchema sch (pre ++ encodeSchema sch v) = .ok v := by
  have hwf' := hwf
  simp only [SchemaVal.wfb, Bool.and_eq_true, beq_iff_eq] at hwf'
  obtain ⟨hl1, hl2⟩ := hwf'
  obtain ⟨hndr, hndo, hdisj⟩ := List.nodup_append.mp hnd
  have hreq : sch.required.mapM
      (getReq (pre ++ (sch.required.zip v.req ++ optFields sch.optionalKeys v.opt))) =
        Except.ok v.req :=
    mapM_getReq_ok sch.required v.req pre (optFields sch.optionalKeys v.opt) hl1.symm hndr
      (fun k hk => hpre k (List.mem_append_left _ hk))
  have hopt : sch.optionalKeys.map
      (alistGet ((pre ++ sch.required.zip v.req) ++ optFields sch.optionalKeys v.opt)) =
        v.opt := by
    refine map_alistGet_optFields _ _ _ hl2.symm hndo ?_
    intro k hk
    rw [alistGet_append_right _ (hpre k (List.mem_append_right _ hk))]
    exact alistGet_zip_not_mem _ _ (fun hmem => hdisj hmem hk)
  have he : pre ++ (sch.required.zip v.req ++ optFields sch.optionalKeys v.opt) =
      (pre ++ sch.required.zip v.req) ++ optFields sch.optionalKeys v.opt := by simp
  rw [he] at hreq
  unfold decodeSchema encodeSchema
  rw [hser]
  simp only [← List.append_assoc]
  simp only [hreq, hopt]
  rfl

theorem decodePayload_encodePayload (ps : PayloadSpec) (pv : PayloadVal)
    (hwf : PayloadVal.wfb ps pv = true) (hok : payloadSpecOk ps = true) :
    decodePayload ps (encodePayload ps pv) = .ok pv := by
  cases ps with
  | noPayload =>
    cases pv with
    | absent => rfl
    | dataV j => simp [PayloadVal.wfb] at hwf
    | plainV v => simp [PayloadVal.wfb] at hwf
    | singleV v => simp [PayloadVal.wfb] at hwf
    | multiV v => simp [PayloadVal.wfb] at hwf
  | dataPayload =>
    cases pv with
    | dataV j => rfl
    | absent => simp [PayloadVal.wfb] at hwf
    | plainV v => simp [PayloadVal.wfb] at hwf
    | singleV v => simp [PayloadVal.wfb] at hwf
    | multiV v => simp [PayloadVal.wfb] at hwf
  | plainP sch =>
    cases pv with
    | plainV v =>
      simp only [payloadSpecOk, Bool.and_eq_true, decide_eq_true_eq] at hok
      obtain ⟨hnd, hser⟩ := hok
      have h := decodeSchema_encodeSchema sch v [] (by simpa [PayloadVal.wfb] using hwf)
        hnd (fun k _ => rfl) hser
      simp only [List.nil_append] at h
      simp [decodePayload, encodePayload, h, Except.map]
    | absent => simp [PayloadVal.wfb] at hwf
    | dataV j => simp [PayloadVal.wfb] at hwf
    | singleV v => simp [PayloadVal.wfb] at hwf
    | multiV v => simp [PayloadVal.wfb] at hwf
  | cardinalP s m =>
    simp only [payloadSpecOk, Bool.and_eq_true, decide_eq_true_eq] at hok
    obtain ⟨⟨⟨⟨⟨hnds, hndm⟩, hsers⟩, hserm⟩, hdiscs⟩, hdiscm⟩ := hok
    cases pv with
    | singleV v =>
      have hpre : ∀ k ∈ schemaKeys s,
          alistGet [("isInMultiAction", JVal.bool false)] k = none := by
        intro k hk
        have hne : ¬(("isInMultiAction" : String) = k) := by
          intro hh
          exact hdiscs (hh ▸ hk)
        simp [alistGet, hne]
      have h := decodeSchema_encodeSchema s v [("isInMultiAction", JVal.bool false)]
        (by simpa [PayloadVal.wfb] using hwf) hnds hpre hsers
      simp only [List.singleton_append] at h
      simp [decodePayload, encodePayload, alistGet, h, Except.map]
    | multiV v =>
      have hpre : ∀ k ∈ schemaKeys m,
          alistGet [("isInMultiAction", JVal.bool true)] k = none := by
        intro k hk
        have hne : ¬(("isInMultiAction" : String) = k) := by
          intro hh
          exact hdiscm (hh ▸ hk)
        simp [alistGet, hne]
      have h := decodeSchema_encodeSchema m v [("isInMultiAction", JVal.bool true)]
        (by simpa [PayloadVal.wfb] using hwf) hndm hpre hserm
      simp only [List.singleton_append] at h
      simp [decodePayload, encodePayload, alistGet, h, Except.map]
    | absent => simp [PayloadVal.wfb] at hwf
    | dataV j => simp [PayloadVal.wfb] at hwf
    | plainV v => simp [PayloadVal.wfb] at hwf

theorem find?_tag_self (shapes : List EventShape) (sh : EventShape) (hmem : sh ∈ shapes)
    (htags : (shapes.map (·.tag)).Nodup) :
    shapes.find? (fun x => x.tag == sh.tag) = some sh := by
  induction shapes with
  | nil => cases hmem
  | cons a rest ih =>
    rcases List.mem_cons.mp hmem with rfl | hmem'
    · have hstep : List.find? (fun x => x.tag == sh.tag) (sh :: rest) = some sh :=
        List.find?_cons_of_pos rest (by simp)
      exact hstep
    · have hne : ¬((fun x => x.tag == sh.tag) a = true) := by
        simp only [beq_iff_eq]
        intro hEq
        have h1 : sh.tag ∈ rest.map (·.tag) := List.mem_map_of_mem _ hmem'
        have h2 : a.tag ∉ rest.map (fun x => x.tag) := (List.nodup_cons.mp htags).1
        rw [hEq] at h2
        exact h2 h1
      have hstep : List.find? (fun x => x.tag == sh.tag) (a :: rest) =
          List.find? (fun x => x.tag == sh.tag) rest := List.find?_cons_of_neg rest hne
      rw [hstep]
      exact ih hmem' (List.nodup_cons.mp htags).2

theorem decodeShape_encode_aux (sh : EventShape) (e : EventVal) (pp : List (String × JVal))
    (hndtop : sh.topKeys.Nodup) (hevent_top : "event" ∉ sh.topKeys)
    (hpayload_top : "payload" ∉ sh.topKeys)
    (hlen : e.top.length = sh.topKeys.length)
    (hppl : alistGet pp "payload" = encodePayload sh.payload e.pay)
    (hpwf : PayloadVal.wfb sh.payload e.pay = true) (hpok : payloadSpecOk sh.payload = true)
    (htag : e.tag = sh.tag) :
    decodeShape sh (("event", JVal.str e.tag) :: (sh.topKeys.zip e.top ++ pp)) = .ok e := by
  have htop : sh.topKeys.mapM
      (getReq (("event", JVal.str e.tag) :: (sh.topKeys.zip e.top ++ pp))) =
        Except.ok e.top := by
    have h := mapM_getReq_ok sh.topKeys e.top [("event", JVal.str e.tag)] pp hlen.symm
      hndtop ?_
    · simpa using h
    · intro k hk
      have hne : ¬(("event" : String) = k) := by
        intro hh
        exact hevent_top (hh ▸ hk)
      simp [alistGet, hne]
  have hpayl : alistGet (("event", JVal.str e.tag) :: (sh.topKeys.zip e.top ++ pp))
      "payload" = encodePayload sh.payload e.pay := by
    have h1 : ¬(("event" : String) = "payload") := by decide
    simp only [alistGet, if_neg h1]
    rw [alistGet_append_right _ (alistGet_zip_not_mem _ _ hpayload_top)]
    exact hppl
  have he : (EventVal.mk sh.tag e.top e.pay) = e := by
    cases e
    simp only at htag
    rw [htag]
  unfold decodeShape
  simp only [htop, hpayl, decodePayload_encodePayload sh.payload e.pay hpwf hpok]
  exact congrArg Except.ok he

theorem decodeEventWith_encodeEvent (shapes : List EventShape) (sh : EventShape)
    (e : EventVal) (hmem : sh ∈ shapes) (htags : (shapes.map (·.tag)).Nodup)
    (hok : shapeOk sh = true) (hwf : EventVal.wfb sh e = true) :
    decodeEventWith shapes (.text (encodeEvent sh e)) = .ok e := by
  have hwf' := hwf
  simp only [EventVal.wfb, Bool.and_eq_true, beq_iff_eq] at hwf'
  obtain ⟨⟨htag, hlen⟩, hpwf⟩ := hwf'
  simp only [shapeOk, Bool.and_eq_true, decide_eq_true_eq] at hok
  obtain ⟨hkeys, hpok⟩ := hok
  have h1 := List.nodup_cons.mp hkeys
  have h2 := List.nodup_cons.mp h1.2
  have hevent_top : "event" ∉ sh.topKeys := fun hk => h1.1 (List.mem_cons_of_mem _ hk)
  have hpayload_top : "payload" ∉ sh.topKeys := h2.1
  have hndtop : sh.topKeys.Nodup := h2.2
  have hfind : shapes.find? (fun x => x.tag == e.tag) = some sh := by
    rw [htag]
    exact find?_tag_self shapes sh hmem htags
  unfold decodeEventWith encodeEvent
  cases hEnc : encodePayload sh.payload e.pay with
  | none =>
    have haux := decodeShape_encode_aux sh e [] hndtop hevent_top hpayload_top hlen
      (by rw [hEnc]; rfl) hpwf hpok htag
    simp only [hEnc, List.append_nil, List.cons_append]
    have hev : alistGet (("event", JVal.str e.tag) :: (sh.topKeys.zip e.top ++ [])) "event" =
        some (.str e.tag) := by simp [alistGet]
    simp only [List.append_nil] at hev haux
    simp only [hev, hfind]
    exact haux
  | some j =>
    have haux := decodeShape_encode_aux sh e [("payload", j)] hndtop hevent_top
      hpayload_top hlen (by rw [hEnc]; simp [alistGet]) hpwf hpok htag
    simp only [hEnc, List.cons_append]
    have hev : alistGet (("event", JVal.str e.tag) ::
        (sh.topKeys.zip e.top ++ [("payload", j)])) "event" = some (.str e.tag) := by
      simp [alistGet]
    simp only [hev, hfind]
    exact haux

theorem builtinShapes_tags_nodup : (builtinShapes.map (·.tag)).Nodup := by decide

theorem builtinShapes_ok_of_ne_title :
    ∀ sh ∈ builtinShapes, sh.tag ≠ "titleParametersDidChange" → shapeOk sh = true := by
  decide

theorem init_addModel_foldl (ms : List EventShape) (s : EventAdapterState) :
    (ms.foldl EventAdapterState.addModel s).models = s.models ++ ms ∧
    (ms.foldl EventAdapterState.addModel s).typeAdapter = s.typeAdapter := by
  induction ms generalizing s with
  | nil => simp
  | cons m ms ih =>
    simp only [List.foldl_cons]
    obtain ⟨ih1, ih2⟩ := ih (s.addModel m)
    refine ⟨?_, ?_⟩
    · rw [ih1]
      simp [EventAdapterState.addModel]
    · rw [ih2]
      rfl

theorem effModels_init (ms : List EventShape) : effModels (EventAdapterState.init ms) = ms := by
  unfold EventAdapterState.init effModels
  obtain ⟨h1, h2⟩ := init_addModel_foldl ms ⟨[], [], none⟩
  rw [h2, h1]
  rfl

theorem mapM_getReq_error (ks : List String) (fields : List (String × JVal)) (k : String)
    (hk : k ∈ ks) (hmiss : alistGet fields k = none) :
    ∃ k', ks.mapM (getReq fields) = Except.error (DecodeErr.missingField k') := by
  induction ks with
  | nil => cases hk
  | cons k0 ks ih =>
    cases hg : alistGet fields k0 with
    | none =>
      refine ⟨k0, ?_⟩
      rw [List.mapM_cons]
      have hh : getReq fields k0 = .error (.missingField k0) := by
        unfold getReq
        rw [hg]
      rw [hh]
      rfl
    | some v =>
      have hk' : k ∈ ks := by
        rcases List.mem_cons.mp hk with rfl | h
        · rw [hg] at hmiss
          exact Option.noConfusion hmiss
        · exact h
      obtain ⟨k', hrest⟩ := ih hk'
      refine ⟨k', ?_⟩
      rw [List.mapM_cons]
      have hh : getReq fields k0 = .ok v := by
        unfold getReq
        rw [hg]
      rw [hh, hrest]
      rfl

theorem title_shape_encode_decode_error (e : EventVal)
    (hwf : EventVal.wfb titleParametersShape e = true) :
    ∃ k, decodeEventWith builtinShapes (.text (encodeEvent titleParametersShape e)) =
      .error (.missingField k) := by
  obtain ⟨t, top, pay⟩ := e
  have hwf' := hwf
  simp only [EventVal.wfb, Bool.and_eq_true, beq_iff_eq] at hwf'
  obtain ⟨⟨htag, hlen⟩, hpwf⟩ := hwf'
  cases pay with
  | absent => simp [PayloadVal.wfb, titleParametersShape] at hpwf
  | dataV j => simp [PayloadVal.wfb, titleParametersShape] at hpwf
  | singleV v => simp [PayloadVal.wfb, titleParametersShape] at hpwf
  | multiV v => simp [PayloadVal.wfb, titleParametersShape] at hpwf
  | plainV v =>
    have hmiss : alistGet (encodeSchema titleParametersPayloadSchema v)
        "titleParameters" = none := by
      unfold encodeSchema
      rw [alistGet_append_right _ (alistGet_zip_not_mem _ _ (by decide))]
      exact alistGet_optFields_not_mem _ _ (by decide)
    obtain ⟨k', hk'⟩ := mapM_getReq_error titleParametersPayloadSchema.required
      (encodeSchema titleParametersPayloadSchema v) "titleParameters" (by decide) hmiss
    have hdecSch : decodeSchema titleParametersPayloadSchema
        (encodeSchema titleParametersPayloadSchema v) = .error (.missingField k') := by
      unfold decodeSchema
      rw [hk']
      rfl
    have hshape : decodeShape titleParametersShape
        (("event", JVal.str t) :: (titleParametersShape.topKeys.zip top ++
          [("payload", JVal.obj (encodeSchema titleParametersPayloadSchema v))])) =
        .error (.missingField k') := by
      have htop : titleParametersShape.topKeys.mapM
          (getReq (("event", JVal.str t) :: (titleParametersShape.topKeys.zip top ++
            [("payload", JVal.obj (encodeSchema titleParametersPayloadSchema v))]))) =
          Except.ok top := by
        have h := mapM_getReq_ok titleParametersShape.topKeys top [("event", JVal.str t)]
          [("payload", JVal.obj (encodeSchema titleParametersPayloadSchema v))]
          hlen.symm (by decide) ?_
        · simpa using h
        · intro k hk
          have hk2 : k = "device" ∨ k = "context" := by
            simpa [titleParametersShape] using hk
          rcases hk2 with rfl | rfl
          · simp [alistGet]
          · simp [alistGet]
      have hpayl : alistGet (("event", JVal.str t) :: (titleParametersShape.topKeys.zip top ++
          [("payload", JVal.obj (encodeSchema titleParametersPayloadSchema v))])) "payload" =
          some (JVal.obj (encodeSchema titleParametersPayloadSchema v)) := by
        have h1 : ¬(("event" : String) = "payload") := by decide
        simp only [alistGet, if_neg h1]
        rw [alistGet_append_right _ (alistGet_zip_not_mem _ _ (by decide))]
        simp [alistGet]
      have hdp : decodePayload titleParametersShape.payload
          (some (JVal.obj (encodeSchema titleParametersPayloadSchema v))) =
          .error (.missingField k') := by
        show (decodeSchema titleParametersPayloadSchema
          (encodeSchema titleParametersPayloadSchema v)).map PayloadVal.plainV = _
        rw [hdecSch]
        rfl
      unfold decodeShape
      simp only [htop, hpayl, hdp]
      rfl
    refine ⟨k', ?_⟩
    unfold decodeEventWith encodeEvent
    cases hEnc : encodePayload titleParametersShape.payload (PayloadVal.plainV v) with
    | none =>
      exact Option.noConfusion
        ((rfl : (some (JVal.obj (encodeSchema titleParametersPayloadSchema v)) : Option JVal) =
          encodePayload titleParametersShape.payload (PayloadVal.plainV v)).trans hEnc)
    | some j =>
      have hj : j = JVal.obj (encodeSchema titleParametersPayloadSchema v) :=
        Option.some.inj (hEnc.symm.trans rfl)
      subst hj
      have hev : alistGet (("event", JVal.str t) :: (titleParametersShape.topKeys.zip top ++
          [("payload", JVal.obj (encodeSchema titleParametersPayloadSchema v))])) "event" =
          some (JVal.str t) := by simp [alistGet]
      have hfind : builtinShapes.find? (fun x => x.tag == t) = some titleParametersShape := by
        rw [htag]
        exact find?_tag_self builtinShapes titleParametersShape (by decide)
          builtinShapes_tags_nodup
      simp only [hEnc, List.cons_append]
      simp only [hev, hfind]
      exact hshape

/-- C10 counterexample: for the built-in `titleParametersDidChange` shape the
round trip fails.  `TitleParametersDidChangePayload` subclasses plain
`BaseModel` with no `serialize_by_alias` config, so its wire form carries the
field name `title_parameters`, while validation requires the alias
`titleParameters`: decoding the encoded concrete event yields a
missing-field error instead of the event. -/
theorem c10_roundtrip_counterexample :
    titleParametersShape ∈ builtinShapes ∧
    EventVal.wfb titleParametersShape titleParametersExample = true ∧
    ((EventAdapterState.init builtinShapes).validateJson
        (.text (encodeEvent titleParametersShape titleParametersExample))).1 =
      .error (.missingField "titleParameters") :=
  ⟨by decide, rfl, rfl⟩

/-- C10 (amended): serializing a built-in typed event value to its JSON wire
form and decoding it back through a fresh event adapter yields an equal value
for every built-in event shape except `titleParametersDidChange`; for that
shape the payload's aliased field is emitted under its Python field name
`title_parameters` (its payload model lacks `serialize_by_alias`) while
validation requires the alias, so decoding any well-formed encoded
`titleParametersDidChange` event fails with a missing-field error. -/
theorem c10_decode_encode_roundtrip (sh : EventShape) (e : EventVal)
    (hmem : sh ∈ builtinShapes) (hne : sh.tag ≠ "titleParametersDidChange")
    (hwf : EventVal.wfb sh e = true) :
    ((EventAdapterState.init builtinShapes).validateJson
        (.text (encodeEvent sh e))).1 = .ok e ∧
    ∀ e', EventVal.wfb titleParametersShape e' = true →
      ∃ k, ((EventAdapterState.init builtinShapes).validateJson
        (.text (encodeEvent titleParametersShape e'))).1 = .error (.missingField k) := by
  constructor
  · rw [validateJson_fst, effModels_init]
    exact decodeEventWith_encodeEvent builtinShapes sh e hmem builtinShapes_tags_nodup
      (builtinShapes_ok_of_ne_title sh hmem hne) hwf
  · intro e' hwf'
    rw [validateJson_fst, effModels_init]
    exact title_shape_encode_decode_error e' hwf'

/-- C10 witness: a concrete single-action `keyDown` event round-trips through
encode and adapter decode, while the concrete `titleParametersDidChange`
event fails to re-decode. -/
theorem c10_decode_encode_roundtrip_witness :
    ((EventAdapterState.init builtinShapes).validateJson
        (.text (encodeEvent keyDownShape keyDownExample))).1 = .ok keyDownExample ∧
    ∃ k, ((EventAdapterState.init builtinShapes).validateJson
        (.text (encodeEvent titleParametersShape titleParametersExample))).1 =
      .error (.missingField k) :=
  ⟨(c10_decode_encode_roundtrip keyDownShape keyDownExample (by decide) (by decide) rfl).1,
   (c10_decode_encode_roundtrip keyDownShape keyDownExample (by decide) (by decide) rfl).2
     titleParametersExample rfl⟩

end Streamdeck
